import Mathlib

/-!
Verification development for the aipilot-cli bridge daemon.

Go source is shallowly embedded: Go byte strings and byte slices become
`List Nat` (each element a byte value `< 256`), Go `int`/`int64` become `Int`,
machine conversions such as `uint16(x)` become explicit `% 2 ^ 16` arithmetic,
and fallible operations return `Option`.  Stateful code (the `Daemon` struct)
becomes explicit state passing; side effects (PTY writes, resizes, control
messages, file writes) become explicit effect lists.
-/

namespace AIPilot

/-- Go string literal as a byte list (all sources here are ASCII). -/
def gostr (s : String) : List Nat :=
  s.data.map Char.toNat

/-- All elements are byte values. -/
def allBytes (l : List Nat) : Prop :=
  ∀ b ∈ l, b < 256

instance (l : List Nat) : Decidable (allBytes l) := by
  unfold allBytes; infer_instance

/-- Big-endian bytes-to-natural conversion. -/
def bytesToNat (l : List Nat) : Nat :=
  l.foldl (fun acc b => acc * 256 + b) 0

/-- Big-endian natural-to-bytes conversion producing exactly `n` bytes.
    Every produced element is `< 256` by construction. -/
def natToBytes (n : Nat) (x : Nat) : List Nat :=
  (List.range n).map (fun i => (x >>> ((n - 1 - i) * 8)) &&& 255)

/-- `strings.ToLower` restricted to ASCII (the only case exercised here). -/
def lowerByte (b : Nat) : Nat :=
  if 65 ≤ b ∧ b ≤ 90 then b + 32 else b

def goToLower (s : List Nat) : List Nat :=
  s.map lowerByte

/-- `unicode.IsSpace` on ASCII bytes. -/
def isGoSpace (b : Nat) : Bool :=
  b = 32 ∨ b = 9 ∨ b = 10 ∨ b = 11 ∨ b = 12 ∨ b = 13

/-- `strings.TrimSpace` on ASCII byte strings. -/
def goTrimSpace (s : List Nat) : List Nat :=
  ((s.dropWhile isGoSpace).reverse.dropWhile isGoSpace).reverse

/-- `strings.SplitN(s, sep, 2)` for a one-byte separator: the part before the
    first separator and, when the separator occurs, the remainder after it. -/
def splitN2 (sep : Nat) : List Nat → List Nat × Option (List Nat)
  | [] => ([], none)
  | b :: rest =>
    if b = sep then ([], some rest)
    else
      let r := splitN2 sep rest
      (b :: r.1, r.2)

/-- `strings.SplitN(s, sep, 3)` via two applications of `splitN2`. -/
def splitN3 (sep : Nat) (s : List Nat) : List Nat × Option (List Nat × Option (List Nat)) :=
  match splitN2 sep s with
  | (a, none) => (a, none)
  | (a, some rest) => (a, some (splitN2 sep rest))

/-- `strings.SplitN(s, sep, 4)`. -/
def splitN4 (sep : Nat) (s : List Nat) :
    List Nat × Option (List Nat × Option (List Nat × Option (List Nat))) :=
  match splitN2 sep s with
  | (a, none) => (a, none)
  | (a, some rest) => (a, some (splitN3 sep rest))

/-- `strings.Split(s, sep)` for a one-byte separator. -/
def goSplit (sep : Nat) : List Nat → List (List Nat)
  | [] => [[]]
  | b :: rest =>
    let r := goSplit sep rest
    if b = sep then [] :: r
    else
      match r with
      | [] => [[b]]
      | h :: t => (b :: h) :: t

/-- Leading decimal digits of a byte string, as a natural number, together
    with a flag telling whether at least one digit was present. -/
def parseDigits : List Nat → Nat → Bool → Nat × Bool
  | [], acc, seen => (acc, seen)
  | b :: rest, acc, seen =>
    if 48 ≤ b ∧ b ≤ 57 then parseDigits rest (acc * 10 + (b - 48)) true
    else (acc, seen)

/-- `fmt.Sscanf(s, "%d", &x)` model: skip leading spaces, optional sign,
    then decimal digits; when no digits are found the Go variable keeps its
    zero initialisation. -/
def parseGoInt (s : List Nat) : Int :=
  let t := s.dropWhile (fun b => b = 32 ∨ b = 9)
  match t with
  | 45 :: rest =>
    let r := parseDigits rest 0 false
    if r.2 then -(r.1 : Int) else 0
  | 43 :: rest =>
    let r := parseDigits rest 0 false
    if r.2 then (r.1 : Int) else 0
  | _ =>
    let r := parseDigits t 0 false
    if r.2 then (r.1 : Int) else 0

/-- Decimal rendering of a natural number (digit bytes), via Lean's
    `Nat.toDigits`-free construction. -/
def natDecAux : Nat → Nat → List Nat
  | _, 0 => []
  | fuel + 1, x =>
    if x = 0 then []
    else natDecAux fuel (x / 10) ++ [48 + x % 10]
  | 0, _ => []

/-- Decimal rendering of `n` as ASCII bytes (`fmt.Sprintf("%d", n)` for `n ≥ 0`). -/
def natDec (n : Nat) : List Nat :=
  if n = 0 then [48] else natDecAux (n + 1) n

/-- `fmt.Sprintf("%d", i)` for a Go int. -/
def intDec (i : Int) : List Nat :=
  if i < 0 then 45 :: natDec i.natAbs else natDec i.natAbs

/-- Go `uint16(x)` conversion of a Go int (two's-complement wrap). -/
def toU16 (i : Int) : Nat :=
  (i % 65536).toNat

/-! ### base64 (Go `encoding/base64` StdEncoding) -/

/-- The standard base64 alphabet, packed little-endian: byte `i` of this
    constant is the ASCII code of alphabet character `i`. -/
def b64Alphabet : Nat :=
  0x2f2b393837363534333231307a797877767574737271706f6e6d6c6b6a6968676665646362615a595857565554535251504f4e4d4c4b4a494847464544434241

/-- Character for a sextet value. -/
def b64chr (s : Nat) : Nat :=
  (b64Alphabet >>> (8 * s)) &&& 255

/-- Sextet value of an alphabet character; `none` for a byte outside the
    alphabet. -/
def b64idx (c : Nat) : Option Nat :=
  if 65 ≤ c ∧ c ≤ 90 then some (c - 65)
  else if 97 ≤ c ∧ c ≤ 122 then some (c - 97 + 26)
  else if 48 ≤ c ∧ c ≤ 57 then some (c - 48 + 52)
  else if c = 43 then some 62
  else if c = 47 then some 63
  else none

/-- `base64.StdEncoding.EncodeToString` on byte lists. -/
def b64encode : List Nat → List Nat
  | a :: b :: c :: rest =>
    b64chr (a >>> 2) :: b64chr (((a &&& 3) <<< 4) ||| (b >>> 4)) ::
    b64chr (((b &&& 15) <<< 2) ||| (c >>> 6)) :: b64chr (c &&& 63) :: b64encode rest
  | [a, b] =>
    [b64chr (a >>> 2), b64chr (((a &&& 3) <<< 4) ||| (b >>> 4)),
     b64chr ((b &&& 15) <<< 2), 61]
  | [a] =>
    [b64chr (a >>> 2), b64chr ((a &&& 3) <<< 4), 61, 61]
  | [] => []

/-- `base64.StdEncoding.DecodeString` on byte lists (default decoder: padding
    must be well-placed, non-alphabet bytes are errors). -/
def b64decode : List Nat → Option (List Nat)
  | [] => some []
  | c0 :: c1 :: c2 :: c3 :: rest =>
    match b64idx c0, b64idx c1 with
    | some s0, some s1 =>
      if c2 = 61 then
        if c3 = 61 ∧ rest = [] then some [(s0 <<< 2) ||| (s1 >>> 4)]
        else none
      else
        match b64idx c2 with
        | some s2 =>
          if c3 = 61 then
            if rest = [] then
              some [(s0 <<< 2) ||| (s1 >>> 4), ((s1 &&& 15) <<< 4) ||| (s2 >>> 2)]
            else none
          else
            match b64idx c3 with
            | some s3 =>
              match b64decode rest with
              | some tail =>
                some (((s0 <<< 2) ||| (s1 >>> 4)) ::
                      (((s1 &&& 15) <<< 4) ||| (s2 >>> 2)) ::
                      (((s2 &&& 3) <<< 6) ||| s3) :: tail)
              | none => none
            | none => none
        | none => none
    | _, _ => none
  | _ => none

/-! ### SHA-256 (Go `crypto/sha256`), used by `initEncryption` to derive the
AEAD key from the session token -/

/-- SHA-256 round constants. -/
def shaK : List Nat :=
  [1116352408, 1899447441, 3049323471, 3921009573, 961987163, 1508970993,
   2453635748, 2870763221, 3624381080, 310598401, 607225278, 1426881987,
   1925078388, 2162078206, 2614888103, 3248222580, 3835390401, 4022224774,
   264347078, 604807628, 770255983, 1249150122, 1555081692, 1996064986,
   2554220882, 2821834349, 2952996808, 3210313671, 3336571891, 3584528711,
   113926993, 338241895, 666307205, 773529912, 1294757372, 1396182291,
   1695183700, 1986661051, 2177026350, 2456956037, 2730485921, 2820302411,
   3259730800, 3345764771, 3516065817, 3600352804, 4094571909, 275423344,
   430227734, 506948616, 659060556, 883997877, 958139571, 1322822218,
   1537002063, 1747873779, 1955562222, 2024104815, 2227730452, 2361852424,
   2428436474, 2756734187, 3204031479, 3329325298]

/-- 32-bit right rotation. -/
def rotr32 (n x : Nat) : Nat :=
  ((x >>> n) ||| (x <<< (32 - n))) &&& 0xFFFFFFFF

/-- SHA-256 message padding. -/
def shaPad (msg : List Nat) : List Nat :=
  msg ++ 128 :: List.replicate ((119 - msg.length % 64) % 64) 0 ++
    natToBytes 8 (8 * msg.length)

/-- Split a byte list into chunks of `n` bytes (the input length is assumed a
    multiple of `n` where it matters). -/
def chunksAux (n : Nat) : Nat → List Nat → List (List Nat)
  | 0, _ => []
  | _, [] => []
  | fuel + 1, bs => bs.take n :: chunksAux n fuel (bs.drop n)

def chunks (n : Nat) (bs : List Nat) : List (List Nat) :=
  chunksAux n bs.length bs

/-- One SHA-256 compression round over the working variables. -/
def shaRound (w : List Nat) (v : List Nat) (i : Nat) : List Nat :=
  match v with
  | [a, b, c, d, e, f, g, h] =>
    let S1 := rotr32 6 e ^^^ rotr32 11 e ^^^ rotr32 25 e
    let ch := (e &&& f) ^^^ ((e ^^^ 0xFFFFFFFF) &&& g)
    let t1 := (h + S1 + ch + shaK.getD i 0 + w.getD i 0) % 4294967296
    let S0 := rotr32 2 a ^^^ rotr32 13 a ^^^ rotr32 22 a
    let mj := (a &&& b) ^^^ (a &&& c) ^^^ (b &&& c)
    let t2 := (S0 + mj) % 4294967296
    [(t1 + t2) % 4294967296, a, b, c, (d + t1) % 4294967296, e, f, g]
  | v => v

/-- SHA-256 compression of one 64-byte block into the running state. -/
def shaCompress (st : List Nat) (block : List Nat) : List Nat :=
  let w16 := (List.range 16).map (fun i => bytesToNat ((block.drop (4 * i)).take 4))
  let w := (List.range' 16 48).foldl (fun w i =>
    let x15 := w.getD (i - 15) 0
    let x2 := w.getD (i - 2) 0
    let s0 := rotr32 7 x15 ^^^ rotr32 18 x15 ^^^ (x15 >>> 3)
    let s1 := rotr32 17 x2 ^^^ rotr32 19 x2 ^^^ (x2 >>> 10)
    w ++ [(w.getD (i - 16) 0 + s0 + w.getD (i - 7) 0 + s1) % 4294967296]) w16
  let fin := (List.range 64).foldl (shaRound w) st
  List.zipWith (fun x y => (x + y) % 4294967296) st fin

/-- `sha256.Sum256` as a 32-byte list. -/
def sha256Bytes (msg : List Nat) : List Nat :=
  let st := (chunks 64 (shaPad msg)).foldl shaCompress
    [1779033703, 3144134277, 1013904242, 2773480762,
     1359893119, 2600822924, 528734635, 1541459225]
  st.foldr (fun wo acc => natToBytes 4 wo ++ acc) []

/-! ### AES-256 (Go `crypto/aes`) -/

/-- The AES S-box, packed little-endian: byte `i` of this constant is
    `sbox[i]`. -/
def sboxPacked : Nat :=
  0x16bb54b00f2d99416842e6bf0d89a18cdf2855cee9871e9b948ed9691198f8e19e1dc186b95735610ef6034866b53e708a8bbd4b1f74dde8c6b4a61c2e2578ba08ae7a65eaf4566ca94ed58d6d37c8e779e4959162acd3c25c2406490a3a32e0db0b5ede14b8ee4688902a22dc4f816073195d643d7ea7c41744975fec130ccdd2f3ff1021dab6bcf5389d928f40a351a89f3c507f02f94585334d43fbaaefd0cf584c4a39becb6a5bb1fc20ed00d153842fe329b3d63b52a05a6e1b1a2c830975b227ebe28012079a059618c323c7041531d871f1e5a534ccf73f362693fdb7c072a49cafa2d4adf04759fa7dc982ca76abd7fe2b670130c56f6bf27b777c63

/-- S-box lookup. -/
def sbox (b : Nat) : Nat :=
  (sboxPacked >>> (8 * b)) &&& 255

/-- Rotate a 32-bit word left by one byte. -/
def rotWord (w : Nat) : Nat :=
  ((w <<< 8) ||| (w >>> 24)) &&& 0xFFFFFFFF

/-- Apply the S-box to each byte of a 32-bit word. -/
def subWord (w : Nat) : Nat :=
  (sbox ((w >>> 24) &&& 255) <<< 24) ||| (sbox ((w >>> 16) &&& 255) <<< 16) |||
  (sbox ((w >>> 8) &&& 255) <<< 8) ||| sbox (w &&& 255)

/-- AES round constants for AES-256 key expansion (index `i/8`, 1-based). -/
def rcon : List Nat := [0, 1, 2, 4, 8, 16, 32, 64]

/-- AES-256 key expansion: 60 32-bit words from a 32-byte key. -/
def aesExpandKey (key : List Nat) : List Nat :=
  let w0 := (List.range 8).map (fun i => bytesToNat ((key.drop (4 * i)).take 4))
  (List.range' 8 52).foldl (fun w i =>
    let temp := w.getD (i - 1) 0
    let temp :=
      if i % 8 = 0 then subWord (rotWord temp) ^^^ (rcon.getD (i / 8) 0 <<< 24)
      else if i % 8 = 4 then subWord temp
      else temp
    w ++ [w.getD (i - 8) 0 ^^^ temp]) w0

/-- The 15 AES-256 round keys, 16 bytes each. -/
def aesRoundKeys (key : List Nat) : List (List Nat) :=
  let w := aesExpandKey key
  (List.range 15).map (fun r =>
    natToBytes 4 (w.getD (4 * r) 0) ++ natToBytes 4 (w.getD (4 * r + 1) 0) ++
    natToBytes 4 (w.getD (4 * r + 2) 0) ++ natToBytes 4 (w.getD (4 * r + 3) 0))

def addRoundKey (st rk : List Nat) : List Nat :=
  List.zipWith (· ^^^ ·) st rk

def subBytes (st : List Nat) : List Nat :=
  st.map sbox

/-- AES ShiftRows on the 16-byte state (byte `i` holds row `i % 4`). -/
def shiftRows (st : List Nat) : List Nat :=
  [0, 5, 10, 15, 4, 9, 14, 3, 8, 13, 2, 7, 12, 1, 6, 11].map (fun i => st.getD i 0)

/-- Multiplication by `x` in GF(2^8). -/
def xtime (b : Nat) : Nat :=
  ((b <<< 1) ^^^ (if 128 ≤ b then 27 else 0)) &&& 255

/-- Multiplication by `x + 1` in GF(2^8). -/
def mul3 (b : Nat) : Nat :=
  xtime b ^^^ b

/-- AES MixColumns on one 4-byte column. -/
def mixCol : List Nat → List Nat
  | [a, b, c, d] =>
    [xtime a ^^^ mul3 b ^^^ c ^^^ d,
     a ^^^ xtime b ^^^ mul3 c ^^^ d,
     a ^^^ b ^^^ xtime c ^^^ mul3 d,
     mul3 a ^^^ b ^^^ c ^^^ xtime d]
  | l => l

def mixColumns (st : List Nat) : List Nat :=
  mixCol (st.take 4) ++ mixCol ((st.drop 4).take 4) ++
  mixCol ((st.drop 8).take 4) ++ mixCol (st.drop 12)

/-- AES-256 block encryption on a 16-byte state. -/
def aesEncryptBlock (rks : List (List Nat)) (inp : List Nat) : List Nat :=
  let st0 := addRoundKey inp (rks.getD 0 [])
  let st := (List.range' 1 13).foldl (fun st r =>
    addRoundKey (mixColumns (shiftRows (subBytes st))) (rks.getD r [])) st0
  addRoundKey (shiftRows (subBytes st)) (rks.getD 14 [])

/-- AES-256 block encryption of a 128-bit value. -/
def aesBlockN (rks : List (List Nat)) (x : Nat) : Nat :=
  bytesToNat (aesEncryptBlock rks (natToBytes 16 x))

/-! ### GCM (Go `crypto/cipher.NewGCM`) -/

/-- GF(2^128) multiplication as in NIST SP 800-38D (MSB-first bits). -/
def gfMul (x y : Nat) : Nat :=
  ((List.range 128).foldl (fun (zv : Nat × Nat) i =>
    let z := if x.testBit (127 - i) then zv.1 ^^^ zv.2 else zv.1
    let v := if zv.2.testBit 0 then (zv.2 >>> 1) ^^^ (0xE1 <<< 120) else zv.2 >>> 1
    (z, v)) (0, y)).1

/-- GHASH over whole 128-bit blocks. -/
def ghash (h : Nat) (blocks : List Nat) : Nat :=
  blocks.foldl (fun y x => gfMul (y ^^^ x) h) 0

/-- Bytes to 128-bit blocks, the last block zero-padded on the right. -/
def bytesToBlocks (bs : List Nat) : List Nat :=
  (chunks 16 bs).map (fun c => bytesToNat c <<< (8 * (16 - c.length)))

/-- The GHASH length block for `a` AAD bytes and `c` ciphertext bytes. -/
def lenBlock (a c : Nat) : Nat :=
  (((8 * a) % 2 ^ 64) <<< 64) ||| ((8 * c) % 2 ^ 64)

/-- 32-bit increment of the low word of a counter block. -/
def inc32 (j : Nat) : Nat :=
  ((j >>> 32) <<< 32) ||| (((j &&& 0xFFFFFFFF) + 1) &&& 0xFFFFFFFF)

/-- Precomputed GCM context: AES round keys and the GHASH key `H`. -/
structure GCMCtx where
  rks : List (List Nat)
  h : Nat
  deriving DecidableEq

/-- `cipher.NewGCM(aes.NewCipher(key))`. -/
def initGCM (key : List Nat) : GCMCtx :=
  let rks := aesRoundKeys key
  { rks := rks, h := aesBlockN rks 0 }

/-- The pre-counter block for a 12-byte nonce. -/
def gcmJ0 (nonce : List Nat) : Nat :=
  (bytesToNat nonce <<< 32) ||| 1

/-- CTR keystream of `n` bytes starting after `j0`. -/
def keystream (ctx : GCMCtx) (j0 : Nat) (n : Nat) : List Nat :=
  (((List.range ((n + 15) / 16)).map
    (fun i => natToBytes 16 (aesBlockN ctx.rks (inc32^[i + 1] j0)))).flatten).take n

/-- The GCM authentication tag over ciphertext `ct` (no AAD). -/
def gcmTag (ctx : GCMCtx) (j0 : Nat) (ct : List Nat) : Nat :=
  aesBlockN ctx.rks j0 ^^^ ghash ctx.h (bytesToBlocks ct ++ [lenBlock 0 ct.length])

/-- `gcm.Seal(nonce, nonce, plaintext, nil)`: `nonce ‖ ciphertext ‖ tag`. -/
def gcmSeal (ctx : GCMCtx) (nonce pt : List Nat) : List Nat :=
  let j0 := gcmJ0 nonce
  let ct := List.zipWith (· ^^^ ·) pt (keystream ctx j0 pt.length)
  nonce ++ ct ++ natToBytes 16 (gcmTag ctx j0 ct)

/-- `gcm.Open(nil, nonce, cttag, nil)`. -/
def gcmOpen (ctx : GCMCtx) (nonce cttag : List Nat) : Option (List Nat) :=
  if cttag.length < 16 then none
  else
    let ct := cttag.take (cttag.length - 16)
    let tag := cttag.drop (cttag.length - 16)
    let j0 := gcmJ0 nonce
    if natToBytes 16 (gcmTag ctx j0 ct) = tag then
      some (List.zipWith (· ^^^ ·) ct (keystream ctx j0 ct.length))
    else none

/-! ### Session cipher (`session.go`: `initEncryption`, `encrypt`, `decrypt`) -/

/-- `Daemon.initEncryption`: derive the AES-256-GCM context from the token. -/
def initEncryption (token : List Nat) : GCMCtx :=
  initGCM (sha256Bytes token)

/-- `Daemon.encrypt`: the random nonce is passed explicitly; `none` models the
    error returned when encryption is not initialised. -/
def encrypt (aes : Option GCMCtx) (nonce pt : List Nat) : Option (List Nat) :=
  match aes with
  | none => none
  | some ctx => some (b64encode (gcmSeal ctx nonce pt))

/-- `Daemon.decrypt`. -/
def decrypt (aes : Option GCMCtx) (encoded : List Nat) : Option (List Nat) :=
  match aes with
  | none => none
  | some ctx =>
    match b64decode encoded with
    | none => none
    | some data =>
      if data.length < 12 then none
      else gcmOpen ctx (data.take 12) (data.drop 12)

/-- Flip bit `i` of a byte string (bit 0 is the most significant bit of the
    first byte, as on the wire). -/
def flipBit (i : Nat) (bs : List Nat) : List Nat :=
  bs.set (i / 8) ((bs.getD (i / 8) 0) ^^^ (1 <<< (7 - i % 8)))

/-- The inverse of the ShiftRows byte permutation (verification artifact). -/
def invShiftRows (st : List Nat) : List Nat :=
  [0, 13, 10, 7, 4, 1, 14, 11, 8, 5, 2, 15, 12, 9, 6, 3].map (fun i => st.getD i 0)

/-- Multiplication by 9, 11, 13 and 14 in GF(2^8) (verification artifacts for
    the MixColumns inverse). -/
def m9 (b : Nat) : Nat :=
  xtime (xtime (xtime b)) ^^^ b

def m11 (b : Nat) : Nat :=
  xtime (xtime (xtime b)) ^^^ xtime b ^^^ b

def m13 (b : Nat) : Nat :=
  xtime (xtime (xtime b)) ^^^ xtime (xtime b) ^^^ b

def m14 (b : Nat) : Nat :=
  xtime (xtime (xtime b)) ^^^ xtime (xtime b) ^^^ xtime b

/-- The inverse of MixColumns on one column (verification artifact). -/
def invMixCol : List Nat → List Nat
  | [a, b, c, d] =>
    [m14 a ^^^ m11 b ^^^ m13 c ^^^ m9 d,
     m9 a ^^^ m14 b ^^^ m11 c ^^^ m13 d,
     m13 a ^^^ m9 b ^^^ m14 c ^^^ m11 d,
     m11 a ^^^ m13 b ^^^ m9 c ^^^ m14 d]
  | l => l

/-- The inverse of MixColumns on the 16-byte state (verification artifact). -/
def invMixColumns (st : List Nat) : List Nat :=
  invMixCol (st.take 4) ++ invMixCol ((st.drop 4).take 4) ++
  invMixCol ((st.drop 8).take 4) ++ invMixCol (st.drop 12)

/-- The inverse AES S-box, packed little-endian (verification artifact). -/
def invSboxPacked : Nat :=
  0x7d0c2155631469e126d677ba7e042b17619953833cbbebc8b0f52aae4d3be0a0ef9cc9939f7ae52d0d4ab519a97f51605fec8027591012b131c7078833a8dd1ff45acd78fec0db9a2079d2c64b3e56fc1bbe18aa0e62b76f89c5291d711af1476edf751ce837f9e28535ade72274ac9673e6b4f0cecff297eadc674f4111913a6b8a130103bdafc1020f3fca8f1e2cd00645b3b80558e4f70ad3bc8c00abd890849d8da75746155edab9edfd5048706c92b6655dcc5ca4d41698688664f6f87225d18b6d49a25b76b224d92866a12e084ec3fa420b954cee3d23c2a632947b54cbe9dec444438e3487ff2f9b8239e37cfbd7f3819ea340bf38a53630d56a0952

/-- Inverse S-box lookup. -/
def invSbox (b : Nat) : Nat :=
  (invSboxPacked >>> (8 * b)) &&& 255

/-! ### WebSocket send path (`websocket.go`: `sendToMobile`,
`sendControlMessage`) -/

/-- The fields of the wire `Message` exercised by the send path. -/
structure WireMsg where
  type : List Nat
  payload : List Nat
  deriving DecidableEq

/-- The connection-related daemon fields read by the send path.  `wsConn`
    records whether the WebSocket handle is non-nil.  The daemon has no other
    field that could buffer outbound bytes. -/
structure ConnState where
  wsConn : Bool
  relayConnected : Bool
  mobileConnected : Bool
  aes : Option GCMCtx
  deriving DecidableEq

/-- `Daemon.sendToMobile`: the produced WebSocket write, or `none` when
    nothing is written.  The fresh random nonce is passed explicitly. -/
def sendToMobile (st : ConnState) (nonce data : List Nat) : Option WireMsg :=
  if st.mobileConnected ∧ st.relayConnected ∧ st.wsConn then
    let encrypted :=
      match encrypt st.aes nonce data with
      | some e => e
      | none => b64encode data
    some { type := gostr ("data"), payload := encrypted }
  else none

/-- `Daemon.sendControlMessage`. -/
def sendControlMessage (st : ConnState) (nonce msg : List Nat) : Option WireMsg :=
  if st.mobileConnected ∧ st.relayConnected ∧ st.wsConn then
    let ctrlData := 0 :: (gostr ("CTRL:") ++ msg)
    let encrypted :=
      match encrypt st.aes nonce ctrlData with
      | some e => e
      | none => b64encode ctrlData
    some { type := gostr ("data"), payload := encrypted }
  else none

/-! ### Viewport multiplexer and line interceptor (`terminal.go`, `main.go`
stdin reader, `websocket.go` data handler, `handleResizeCommand`) -/

/-- Side effects of the viewport / input layer. -/
inductive Eff where
  | ptyWrite (bs : List Nat)
  | ptyResize (cols rows : Nat)
  | delayedPtyWrite (ms : Nat) (bs : List Nat)
  | ctrlMsg (s : List Nat)
  | execCmd (s : List Nat)
  deriving DecidableEq

/-- PTY winsize (uint16 fields, as in the `ioctl` struct). -/
structure Winsize where
  cols : Nat
  rows : Nat
  deriving DecidableEq

/-- The daemon fields touched by the viewport multiplexer and the two line
    interceptors.  `ptmx` is `some ws` when the PTY exists with winsize `ws`.
    A live `time.Timer` is an element of `liveTimers`; `pcSwitchTimer` is the
    handle stored in the daemon field of the same name. -/
structure ViewState where
  pcCols : Int
  pcRows : Int
  mobileCols : Int
  mobileRows : Int
  currentClient : List Nat
  ptmx : Option Winsize
  pcSwitchTimer : Option Nat
  liveTimers : List Nat
  nextTimer : Nat
  lineBuf : List Nat
  inEscapeSeq : Bool
  mobileLineBuf : List Nat
  deriving DecidableEq

/-- `Daemon.sendToPTY`: writes only when the PTY exists. -/
def sendToPTY (s : ViewState) (bs : List Nat) : List Eff :=
  match s.ptmx with
  | some _ => [Eff.ptyWrite bs]
  | none => []

/-- `Daemon.switchToClient` (`terminal.go`). -/
def switchToClient (s : ViewState) (client : List Nat) : ViewState × List Eff :=
  if s.currentClient = client then (s, [])
  else
    let cols := if client = gostr ("mobile") then s.mobileCols else s.pcCols
    let rows := if client = gostr ("mobile") then s.mobileRows else s.pcRows
    if cols ≤ 0 ∨ rows ≤ 0 then (s, [])
    else
      match s.ptmx with
      | none => (s, [])
      | some _ =>
        ({ s with ptmx := some ⟨toU16 cols, toU16 rows⟩, currentClient := client },
         Eff.ptyResize (toU16 cols) (toU16 rows) ::
           ((if client = gostr ("mobile") then [Eff.delayedPtyWrite 50 [0x0C]] else []) ++
            [Eff.ctrlMsg (gostr ("mode:") ++ client)]))

/-- `Daemon.schedulePCSwitch`: stop the stored timer (if any) and arm a fresh
    100 ms timer. -/
def schedulePCSwitch (s : ViewState) : ViewState :=
  if s.currentClient = gostr ("pc") then s
  else
    { s with
      pcSwitchTimer := some s.nextTimer,
      liveTimers :=
        (match s.pcSwitchTimer with
         | some t => s.liveTimers.erase t
         | none => s.liveTimers) ++ [s.nextTimer],
      nextTimer := s.nextTimer + 1 }

/-- A pending 100 ms timer fires: it runs `switchToClient("pc")`. -/
def fireTimer (s : ViewState) (t : Nat) : ViewState × List Eff :=
  switchToClient { s with liveTimers := s.liveTimers.erase t } (gostr ("pc"))

/-- `Daemon.resizePTY` (rows first, as in the source). -/
def resizePTY (s : ViewState) (rows cols : Nat) : ViewState × List Eff :=
  match s.ptmx with
  | none => (s, [])
  | some _ => ({ s with ptmx := some ⟨cols, rows⟩ }, [Eff.ptyResize cols rows])

/-- `Daemon.handleResizeCommand` (control verb `resize:<cols>,<rows>`). -/
def handleResizeCommand (s : ViewState) (args : List Nat) : ViewState × List Eff :=
  let dims := goSplit 44 args
  if dims.length = 2 then
    let cols := parseGoInt (dims.getD 0 [])
    let rows := parseGoInt (dims.getD 1 [])
    if 0 < cols ∧ 0 < rows then
      let s1 := { s with mobileCols := cols, mobileRows := rows }
      match s1.ptmx with
      | none => (s1, [])
      | some _ =>
        if s1.currentClient = gostr ("mobile") then
          let r := resizePTY s1 (toU16 rows) (toU16 cols)
          (r.1, r.2 ++ [Eff.delayedPtyWrite 50 [0x0C]])
        else switchToClient s1 (gostr ("mobile"))
    else (s, [])
  else (s, [])

/-- `Daemon.getAIPilotCommand` (`commands.go`): the recognised meta-command
    set, `""` for anything else. -/
def getAIPilotCommand (line : List Nat) : List Nat :=
  if line = gostr ("//qr") then gostr ("qr")
  else if line = gostr ("//qr-image") then gostr ("qr-image")
  else if line = gostr ("//status") then gostr ("status")
  else if line = gostr ("//disconnect") then gostr ("disconnect")
  else if line = gostr ("//purge") then gostr ("purge")
  else if line = gostr ("//quit") then gostr ("quit")
  else []

/-- `Daemon.handleControlMessage`, restricted to the fields of `ViewState`:
    the `resize` verb acts here; every other verb is dispatched to subsystems
    (uploads, info, SSH) that do not touch the viewport fields, and is a
    viewport no-op. -/
def handleControlMessageView (s : ViewState) (msg : List Nat) : ViewState × List Eff :=
  let parts := splitN2 58 msg
  let cmd := parts.1
  let args := (parts.2).getD []
  if cmd = gostr ("resize") then handleResizeCommand s args
  else (s, [])

/-- One byte of decrypted mobile input through the mobile line interceptor
    (the `for _, char := range data` loop body in `handleWebSocketMessages`). -/
def mobileCharStep (s : ViewState) (c : Nat) : ViewState × List Eff :=
  if c = 13 ∨ c = 10 then
    let cmd := goTrimSpace (goToLower s.mobileLineBuf)
    let ac := getAIPilotCommand cmd
    if ac ≠ [] then
      ({ s with mobileLineBuf := [] },
       sendToPTY s [0x15] ++ [Eff.execCmd ac])
    else ({ s with mobileLineBuf := [] }, sendToPTY s [c])
  else if c = 127 ∨ c = 8 then
    ({ s with mobileLineBuf := s.mobileLineBuf.dropLast }, sendToPTY s [c])
  else if c = 3 then
    ({ s with mobileLineBuf := [] }, sendToPTY s [c])
  else if 32 ≤ c ∧ c < 127 then
    ({ s with mobileLineBuf := s.mobileLineBuf ++ [c] }, sendToPTY s [c])
  else (s, sendToPTY s [c])

/-- The `case "data"` body of `handleWebSocketMessages` after decryption:
    control frames are dispatched, everything else switches the viewport to
    mobile and runs through the mobile line interceptor. -/
def handleDecryptedData (s : ViewState) (data : List Nat) : ViewState × List Eff :=
  if 6 < data.length ∧ data.getD 0 0 = 0 ∧ (data.drop 1).take 5 = gostr ("CTRL:") then
    handleControlMessageView s (data.drop 6)
  else
    let r := switchToClient s (gostr ("mobile"))
    data.foldl
      (fun (acc : ViewState × List Eff) c =>
        let st := mobileCharStep acc.1 c
        (st.1, acc.2 ++ st.2)) r

/-- One byte of local stdin through the stdin reader goroutine (`main.go`). -/
def stdinStep (s : ViewState) (b : Nat) : ViewState × List Eff :=
  if b = 27 then
    ({ s with inEscapeSeq := true }, sendToPTY s [b])
  else if s.inEscapeSeq then
    ({ s with inEscapeSeq :=
        ¬((65 ≤ b ∧ b ≤ 90) ∨ (97 ≤ b ∧ b ≤ 122) ∨ b = 126) },
     sendToPTY s [b])
  else if 32 ≤ b ∧ b < 127 then
    let s1 := { s with lineBuf := s.lineBuf ++ [b] }
    (schedulePCSwitch s1, sendToPTY s1 [b])
  else if b = 13 ∨ b = 10 then
    let cmd := goTrimSpace (goToLower s.lineBuf)
    let ac := getAIPilotCommand cmd
    if ac ≠ [] then
      ({ s with lineBuf := [] }, sendToPTY s [0x15] ++ [Eff.execCmd ac])
    else ({ s with lineBuf := [] }, sendToPTY s [b])
  else if b = 127 ∨ b = 8 then
    ({ s with lineBuf := s.lineBuf.dropLast }, sendToPTY s [b])
  else if b = 3 then
    ({ s with lineBuf := [] }, sendToPTY s [b])
  else if b = 21 then
    ({ s with lineBuf := [] }, sendToPTY s [b])
  else (s, sendToPTY s [b])

/-- The SIGWINCH handler goroutine body (`main.go`), given the result of
    `term.GetSize`. -/
def handleWinch (s : ViewState) (w h : Int) : ViewState × List Eff :=
  if 0 < w ∧ 0 < h then
    let s1 := { s with pcCols := w, pcRows := h }
    if s1.currentClient = gostr ("pc") ∨ s1.currentClient = [] then
      match s1.ptmx with
      | some _ =>
        ({ s1 with ptmx := some ⟨toU16 w, toU16 h⟩, currentClient := gostr ("pc") },
         [Eff.ptyResize (toU16 w) (toU16 h)])
      | none => ({ s1 with currentClient := gostr ("pc") }, [])
    else (s1, [])
  else (s, [])

/-- The `case "connected"` refresh wiggle: resize to one fewer row and back
    (the older `handleWebSocketMessages`, cited by the spec's invariant). -/
def handleConnectedMobile (s : ViewState) : ViewState × List Eff :=
  match s.ptmx with
  | none => (s, [])
  | some ws =>
    if 0 < ws.cols ∧ 0 < ws.rows then
      ({ s with ptmx := some ws },
       [Eff.ptyResize ws.cols (ws.rows - 1), Eff.ptyResize ws.cols ws.rows])
    else (s, [])

/-- The events that drive the viewport / interceptor state. -/
inductive VEvent where
  | stdin (b : Nat)
  | wsData (data : List Nat)
  | fire (t : Nat)
  | winch (w h : Int)
  | connected

/-- One event step.  A timer only fires while it is pending (a stopped timer
    never runs its callback). -/
def viewStep (s : ViewState) : VEvent → ViewState × List Eff
  | .stdin b => stdinStep s b
  | .wsData d => handleDecryptedData s d
  | .fire t => if t ∈ s.liveTimers then fireTimer s t else (s, [])
  | .winch w h => handleWinch s w h
  | .connected => handleConnectedMobile s

/-- Run a sequence of events. -/
def viewRun (s : ViewState) (evs : List VEvent) : ViewState :=
  evs.foldl (fun s e => (viewStep s e).1) s

/-- The `resize` dims carried by a decrypted data frame, when it is a
    well-formed resize control frame. -/
def resizeDimsOf (data : List Nat) : Option (Int × Int) :=
  if 6 < data.length ∧ data.getD 0 0 = 0 ∧ (data.drop 1).take 5 = gostr ("CTRL:") then
    let parts := splitN2 58 (data.drop 6)
    if parts.1 = gostr ("resize") then
      let dims := goSplit 44 ((parts.2).getD [])
      if dims.length = 2 then
        some (parseGoInt (dims.getD 0 []), parseGoInt (dims.getD 1 []))
      else none
    else none
  else none

/-- Environment constraints used by the amended winsize invariant: the OS
    reports the local terminal size through a uint16 `winsize` struct, and the
    mobile is assumed to request dimensions below 65536. -/
def eventOK : VEvent → Prop
  | .winch w h => w < 65536 ∧ h < 65536
  | .wsData d => ∀ c r, resizeDimsOf d = some (c, r) → c < 65536 ∧ r < 65536
  | _ => True

/-- The winsize invariant (amended with uint16 range side conditions: all
    stored dimensions stay below 65536, and the active side's winsize matches
    its dimensions exactly). -/
def clientInv (s : ViewState) : Prop :=
  s.pcCols < 65536 ∧ s.pcRows < 65536 ∧ s.mobileCols < 65536 ∧ s.mobileRows < 65536 ∧
  ∀ ws, s.ptmx = some ws →
    (s.currentClient = gostr ("pc") →
      0 < s.pcCols ∧ 0 < s.pcRows ∧
      (ws.cols : Int) = s.pcCols ∧ (ws.rows : Int) = s.pcRows) ∧
    (s.currentClient = gostr ("mobile") →
      0 < s.mobileCols ∧ 0 < s.mobileRows ∧
      (ws.cols : Int) = s.mobileCols ∧ (ws.rows : Int) = s.mobileRows)

/-- The timer invariant: at most one pending PC-switch timer, and any pending
    one is the stored handle. -/
def timerInv (s : ViewState) : Prop :=
  (s.pcSwitchTimer = none → s.liveTimers = []) ∧
  ∀ t, s.pcSwitchTimer = some t → s.liveTimers = [] ∨ s.liveTimers = [t]

/-! ### Chunked upload reassembler (`commands.go`) -/

/-- `ChunkedUpload` (`types.go`); the `chunks` map is an association list with
    distinct keys. -/
structure ChunkedUpload where
  fileName : List Nat
  totalChunks : Int
  totalSize : Int
  chunks : List (Int × List Nat)
  deriving DecidableEq

/-- Go map insertion (replace or append). -/
def mapInsert (m : List (Int × List Nat)) (k : Int) (v : List Nat) :
    List (Int × List Nat) :=
  if m.any (fun p => p.1 = k) then m.map (fun p => if p.1 = k then (k, v) else p)
  else m ++ [(k, v)]

/-- Go map lookup. -/
def mapLookup (m : List (Int × List Nat)) (k : Int) : Option (List Nat) :=
  (m.find? (fun p => p.1 = k)).map Prod.snd

/-- The `chunkedUploads` map, keyed by upload id. -/
abbrev UploadStore := List (List Nat × ChunkedUpload)

def storeLookup (st : UploadStore) (k : List Nat) : Option ChunkedUpload :=
  (st.find? (fun p => p.1 = k)).map Prod.snd

def storeInsert (st : UploadStore) (k : List Nat) (v : ChunkedUpload) : UploadStore :=
  if st.any (fun p => p.1 = k) then st.map (fun p => if p.1 = k then (k, v) else p)
  else st ++ [(k, v)]

def storeErase (st : UploadStore) (k : List Nat) : UploadStore :=
  st.filter (fun p => ¬(p.1 = k))

/-- Effects of the upload subsystem. -/
inductive UpEff where
  | ctrl (msg : List Nat)
  | saveFile (name : List Nat) (data : List Nat)
  deriving DecidableEq

/-- `Daemon.handleChunkedUploadStart`. -/
def handleChunkedUploadStart (st : UploadStore) (args : List Nat) :
    UploadStore × List UpEff :=
  match splitN4 58 args with
  | (uploadId, some (fileName, some (p3, some p4))) =>
    (storeInsert st uploadId
      { fileName := fileName, totalChunks := parseGoInt p3,
        totalSize := parseGoInt p4, chunks := [] },
     [UpEff.ctrl (gostr ("file-upload-ack:") ++ uploadId ++ gostr (":started"))])
  | _ => (st, [])

/-- The reassembly loop `for i := 0; i < TotalChunks; i++`: concatenation in
    ascending index order, or the first missing index. -/
def assembleFrom (m : List (Int × List Nat)) : Nat → Nat → Sum Int (List Nat)
  | _, 0 => .inr []
  | i, rem + 1 =>
    match mapLookup m (i : Int) with
    | some chunk =>
      match assembleFrom m (i + 1) rem with
      | .inr rest => .inr (chunk ++ rest)
      | .inl j => .inl j
    | none => .inl (i : Int)

def assembleChunks (m : List (Int × List Nat)) (total : Int) : Sum Int (List Nat) :=
  assembleFrom m 0 total.toNat

/-- Total byte size of the chunks at indices `i, i+1, …, i+rem-1`. -/
def chunkLenSum (m : List (Int × List Nat)) : Nat → Nat → Nat
  | _, 0 => 0
  | i, rem + 1 => ((mapLookup m (i : Int)).getD []).length + chunkLenSum m (i + 1) rem

/-- `Daemon.handleChunkedUploadChunk`. -/
def handleChunkedUploadChunk (st : UploadStore) (args : List Nat) :
    UploadStore × List UpEff :=
  match splitN3 58 args with
  | (uploadId, some (idxStr, some chunkBase64)) =>
    let chunkIndex := parseGoInt idxStr
    match b64decode chunkBase64 with
    | none =>
      (st, [UpEff.ctrl (gostr ("file-upload-result:error:Invalid chunk data for ") ++ uploadId)])
    | some chunkData =>
      match storeLookup st uploadId with
      | none =>
        (st, [UpEff.ctrl (gostr ("file-upload-result:error:Unknown upload ") ++ uploadId)])
      | some up =>
        let up1 := { up with chunks := mapInsert up.chunks chunkIndex chunkData }
        let st1 := storeInsert st uploadId up1
        if (up1.chunks.length : Int) = up1.totalChunks then
          match assembleChunks up1.chunks up1.totalChunks with
          | .inr fullData =>
            (storeErase st1 uploadId, [UpEff.saveFile up1.fileName fullData])
          | .inl missing =>
            (st1, [UpEff.ctrl (gostr ("file-upload-result:error:Missing chunk ") ++
              intDec missing ++ gostr (" for ") ++ uploadId)])
        else
          (st1, [UpEff.ctrl (gostr ("file-upload-ack:") ++ uploadId ++
            gostr (":") ++ intDec chunkIndex)])
  | _ => (st, [])

/-- `Daemon.handleChunkedUploadCancel`. -/
def handleChunkedUploadCancel (st : UploadStore) (uploadId : List Nat) :
    UploadStore × List UpEff :=
  match storeLookup st uploadId with
  | some _ =>
    (storeErase st uploadId,
     [UpEff.ctrl (gostr ("file-upload-ack:") ++ uploadId ++ gostr (":cancelled"))])
  | none => (st, [])

/-- `filepath.Base` for the names exercised here: the suffix after the last
    slash (the `""`/`"."`/`".."` results are all rejected below, as in Go). -/
def goBase (name : List Nat) : List Nat :=
  (name.reverse.takeWhile (fun b => ¬(b = 47))).reverse

/-- `Daemon.saveUploadedFileBytes`: the temp-file write and result message.
    `ts` is `time.Now().UnixMilli()`; `os.WriteFile` writes exactly the given
    bytes, so the written file's byte length is `fileData.length`. -/
def saveUploadedFileBytes (fileName fileData : List Nat) (ts : Nat) : List UpEff :=
  let base := goBase fileName
  if base = [] ∨ base = gostr (".") ∨ base = gostr ("..") then
    [UpEff.ctrl (gostr ("file-upload-result:error:Invalid filename"))]
  else
    let remotePath := gostr ("aipilot_") ++ natDec ts ++ gostr ("_") ++ base
    [UpEff.saveFile remotePath fileData,
     UpEff.ctrl (gostr ("file-upload-result:success:") ++ remotePath)]

/-! ### PC identity store (`savePCConfig` / `loadPCConfig`), at the JSON
value level (`encoding/json` marshal/unmarshal; the file I/O layer carries the
rendered text verbatim) -/

inductive GoJson where
  | null
  | str (s : List Nat)
  | arr (a : List GoJson)
  | obj (fields : List (List Nat × GoJson))

structure PairedMobile where
  id : List Nat
  name : List Nat
  publicKey : List Nat
  pairedAt : List Nat
  deriving DecidableEq

structure PCConfig where
  pcID : List Nat
  pcName : List Nat
  privateKey : List Nat
  publicKey : List Nat
  pairedMobiles : List PairedMobile
  createdAt : List Nat
  deriving DecidableEq

def marshalMobile (m : PairedMobile) : GoJson :=
  .obj [(gostr ("id"), .str m.id), (gostr ("name"), .str m.name),
        (gostr ("public_key"), .str m.publicKey),
        (gostr ("paired_at"), .str m.pairedAt)]

/-- `savePCConfig` as the JSON value written (via `json.MarshalIndent`). -/
def savePCConfig (c : PCConfig) : GoJson :=
  .obj [(gostr ("pc_id"), .str c.pcID), (gostr ("pc_name"), .str c.pcName),
        (gostr ("private_key"), .str c.privateKey),
        (gostr ("public_key"), .str c.publicKey),
        (gostr ("paired_mobiles"), .arr (c.pairedMobiles.map marshalMobile)),
        (gostr ("created_at"), .str c.createdAt)]

def jsonLookup (fields : List (List Nat × GoJson)) (k : List Nat) : Option GoJson :=
  (fields.find? (fun p => p.1 = k)).map Prod.snd

/-- Unmarshal of a string field: absent and `null` leave the zero value,
    a non-string value is an error. -/
def jStr : Option GoJson → Option (List Nat)
  | none => some []
  | some (.str s) => some s
  | some .null => some []
  | some _ => none

/-- Unmarshal of a slice field. -/
def jArr : Option GoJson → Option (List GoJson)
  | none => some []
  | some (.arr a) => some a
  | some .null => some []
  | some _ => none

def unmarshalMobile : GoJson → Option PairedMobile
  | .obj fields =>
    match jStr (jsonLookup fields (gostr ("id"))),
          jStr (jsonLookup fields (gostr ("name"))),
          jStr (jsonLookup fields (gostr ("public_key"))),
          jStr (jsonLookup fields (gostr ("paired_at"))) with
    | some i, some n, some p, some a =>
      some { id := i, name := n, publicKey := p, pairedAt := a }
    | _, _, _, _ => none
  | _ => none

/-- Unmarshal of the `paired_mobiles` array elements. -/
def decodeMobiles : List GoJson → Option (List PairedMobile)
  | [] => some []
  | j :: rest =>
    match unmarshalMobile j, decodeMobiles rest with
    | some m, some ms => some (m :: ms)
    | _, _ => none

/-- `loadPCConfig` as JSON-value unmarshalling into `PCConfig`. -/
def loadPCConfig : GoJson → Option PCConfig
  | .obj fields =>
    match jStr (jsonLookup fields (gostr ("pc_id"))),
          jStr (jsonLookup fields (gostr ("pc_name"))),
          jStr (jsonLookup fields (gostr ("private_key"))),
          jStr (jsonLookup fields (gostr ("public_key"))),
          jArr (jsonLookup fields (gostr ("paired_mobiles"))),
          jStr (jsonLookup fields (gostr ("created_at"))) with
    | some i, some n, some pk, some pub, some arr, some ca =>
      match decodeMobiles arr with
      | some mobiles =>
        some { pcID := i, pcName := n, privateKey := pk, publicKey := pub,
               pairedMobiles := mobiles, createdAt := ca }
      | none => none
    | _, _, _, _, _, _ => none
  | _ => none

/-- The fields the winsize invariant depends on. -/
def viewCore (s : ViewState) : Int × Int × Int × Int × List Nat × Option Winsize :=
  (s.pcCols, s.pcRows, s.mobileCols, s.mobileRows, s.currentClient, s.ptmx)

/-- The fields the timer invariant depends on. -/
def timerCore (s : ViewState) : Option Nat × List Nat :=
  (s.pcSwitchTimer, s.liveTimers)

/-! ### Concrete instances used by witnesses and counterexamples -/

/-- The daemon's viewport state right after startup with a local terminal of
    size `w × h` (`main.go` initial `Setsize` and field assignments). -/
def pcViewState (w h : Int) : ViewState :=
  { pcCols := w, pcRows := h, mobileCols := 0, mobileRows := 0,
    currentClient := gostr ("pc"), ptmx := some ⟨w.toNat, h.toNat⟩,
    pcSwitchTimer := none, liveTimers := [], nextTimer := 0,
    lineBuf := [], inEscapeSeq := false, mobileLineBuf := [] }

/-- A concrete session token (32 hex characters, the relay's token format). -/
def cToken : List Nat := gostr ("0123456789abcdef0123456789abcdef")

/-- The session cipher derived from `cToken`. -/
def cCtx : GCMCtx := initEncryption cToken

/-- A concrete 12-byte nonce. -/
def cNonce : List Nat := List.range 12

/-- A concrete one-byte plaintext. -/
def cPt : List Nat := gostr ("a")

/-- The concrete encrypted frame `nonce ‖ ciphertext ‖ tag` for `cPt`. -/
def cFrame : List Nat := gcmSeal cCtx cNonce cPt

/-- A state with a pending local meta-command line and a pending plain mobile
    line, used to witness the line-interceptor claim. -/
def sampleLineState : ViewState :=
  { pcViewState 80 24 with lineBuf := gostr ("//STATUS"), mobileLineBuf := gostr ("hello") }

/-- Start frame `u1:hi.txt:2:4` applied to an empty upload store. -/
def sampleUploadRun1 : UploadStore × List UpEff :=
  handleChunkedUploadStart [] (gostr ("u1:hi.txt:2:4"))

/-- Chunk 1 (`"world"`) of the sample upload. -/
def sampleUploadRun2 : UploadStore × List UpEff :=
  handleChunkedUploadChunk sampleUploadRun1.1 (gostr ("u1:1:d29ybGQ="))

/-- Chunk 0 (`"hell"`), completing the sample upload. -/
def sampleUploadRun3 : UploadStore × List UpEff :=
  handleChunkedUploadChunk sampleUploadRun2.1 (gostr ("u1:0:aGVsbA=="))

/-- A chunk with the out-of-range index 5 for the sample upload. -/
def sampleMissRun2 : UploadStore × List UpEff :=
  handleChunkedUploadChunk sampleUploadRun1.1 (gostr ("u1:5:d29ybGQ="))

/-- Chunk 0 after the index-5 chunk: the stored chunk count reaches
    `total_chunks` with index 1 absent. -/
def sampleMissRun3 : UploadStore × List UpEff :=
  handleChunkedUploadChunk sampleMissRun2.1 (gostr ("u1:0:aGVsbA=="))

/-! ## Theorems -/

/-! ### Helper lemmas -/

theorem natToBytes_length (n x : Nat) : (natToBytes n x).length = n := by
  simp [natToBytes]

theorem storeLookup_storeInsert (k : List Nat) (v : ChunkedUpload) :
    ∀ st : UploadStore, storeLookup (storeInsert st k v) k = some v := by
  intro st
  induction st with
  | nil => simp [storeInsert, storeLookup]
  | cons p t ih =>
    by_cases hp : p.1 = k
    · show storeLookup
        (if (p :: t).any (fun q => q.1 = k) then
          (p :: t).map (fun q => if q.1 = k then (k, v) else q)
        else (p :: t) ++ [(k, v)]) k = some v
      rw [if_pos (by simp [hp])]
      simp only [List.map_cons, if_pos hp, storeLookup]
      rw [List.find?_cons_of_pos _ (by simp)]
      rfl
    · by_cases ht : t.any (fun q => q.1 = k)
      · have ih' : storeLookup (t.map (fun q => if q.1 = k then (k, v) else q)) k = some v := by
          simpa only [storeInsert, ht, if_true] using ih
        show storeLookup
          (if (p :: t).any (fun q => q.1 = k) then
            (p :: t).map (fun q => if q.1 = k then (k, v) else q)
          else (p :: t) ++ [(k, v)]) k = some v
        rw [if_pos (by simp [ht])]
        simp only [List.map_cons, if_neg hp, storeLookup]
        rw [List.find?_cons_of_neg _ (by simp [hp])]
        exact ih'
      · have ih' : storeLookup (t ++ [(k, v)]) k = some v := by
          simpa only [storeInsert, ht, if_false] using ih
        show storeLookup
          (if (p :: t).any (fun q => q.1 = k) then
            (p :: t).map (fun q => if q.1 = k then (k, v) else q)
          else (p :: t) ++ [(k, v)]) k = some v
        rw [if_neg (by simp [hp, ht])]
        simp only [List.cons_append, storeLookup]
        rw [List.find?_cons_of_neg _ (by simp [hp])]
        exact ih'

theorem storeLookup_storeErase (st : UploadStore) (k : List Nat) :
    storeLookup (storeErase st k) k = none := by
  simp only [storeLookup, storeErase]
  cases hf : (st.filter (fun p => ¬(p.1 = k))).find? (fun p => p.1 = k) with
  | none => rfl
  | some p =>
    exfalso
    have hpk := List.find?_some hf
    have hmem := List.mem_of_find?_eq_some hf
    have := List.of_mem_filter hmem
    simp at hpk this
    exact this hpk

theorem b64encode_length (bs : List Nat) :
    (b64encode bs).length = 4 * ((bs.length + 2) / 3) := by
  induction bs using b64encode.induct
  all_goals simp [b64encode, *]
  all_goals omega

theorem keystream_length (ctx : GCMCtx) (j0 n : Nat) :
    (keystream ctx j0 n).length = n := by
  simp only [keystream, List.length_take]
  have h : (((List.range ((n + 15) / 16)).map
      (fun i => natToBytes 16 (aesBlockN ctx.rks (inc32^[i + 1] j0)))).flatten).length =
      16 * ((n + 15) / 16) := by
    rw [List.length_flatten, List.map_map]
    have he : ((fun l => List.length l) ∘ fun i => natToBytes 16 (aesBlockN ctx.rks (inc32^[i + 1] j0))) =
        fun _ => 16 := by
      funext i; simp [natToBytes_length]
    rw [he, List.map_const', List.sum_replicate, List.length_range, smul_eq_mul]
    ring
  rw [h]
  omega

theorem gcmSeal_length (ctx : GCMCtx) (nonce pt : List Nat) :
    (gcmSeal ctx nonce pt).length = nonce.length + pt.length + 16 := by
  simp [gcmSeal, List.length_zipWith, keystream_length, natToBytes_length]
  omega

theorem unmarshalMobile_marshalMobile (m : PairedMobile) :
    unmarshalMobile (marshalMobile m) = some m := rfl

theorem decodeMobiles_marshalMobile (l : List PairedMobile) :
    decodeMobiles (l.map marshalMobile) = some l := by
  induction l with
  | nil => rfl
  | cons m t ih => simp [decodeMobiles, unmarshalMobile_marshalMobile, ih]

theorem assembleFrom_inr_length (m : List (Int × List Nat)) :
    ∀ rem i l, assembleFrom m i rem = .inr l → l.length = chunkLenSum m i rem := by
  intro rem
  induction rem with
  | zero =>
    intro i l h
    simp [assembleFrom] at h
    simp [← h, chunkLenSum]
  | succ rem ih =>
    intro i l h
    simp only [assembleFrom] at h
    cases hl : mapLookup m (i : Int) with
    | none => rw [hl] at h; exact absurd h (by simp)
    | some chunk =>
      rw [hl] at h
      cases hr : assembleFrom m (i + 1) rem with
      | inl j => rw [hr] at h; exact absurd h (by simp)
      | inr rest =>
        rw [hr] at h
        simp at h
        rw [← h, chunkLenSum, hl]
        simp [ih (i + 1) rest hr]

/-! ### Claim theorems -/

/-- C10: whenever `relay_connected` or `mobile_connected` is false or the
    WebSocket handle is nil, `sendToMobile` and `sendControlMessage` produce
    no WebSocket write at all, and their argument is discarded: the functions
    return only the (absent) write, and the daemon state has no field that
    could buffer the bytes for later delivery. -/
theorem sendToMobile_disconnected_drops (st : ConnState) (nonce data msg : List Nat)
    (h : st.relayConnected = false ∨ st.mobileConnected = false ∨ st.wsConn = false) :
    sendToMobile st nonce data = none ∧ sendControlMessage st nonce msg = none := by
  rcases h with h | h | h <;> simp [sendToMobile, sendControlMessage, h]

theorem sendToMobile_disconnected_drops_witness :
    sendToMobile ⟨true, false, true, none⟩ [] (gostr ("hi")) = none ∧
    sendControlMessage ⟨true, false, true, none⟩ [] (gostr ("ok")) = none :=
  sendToMobile_disconnected_drops ⟨true, false, true, none⟩ [] (gostr ("hi"))
    (gostr ("ok")) (Or.inl rfl)

/-- C2 (amended): on the send path the payload is AEAD-encrypted whenever the
    session cipher is initialised (and then it is never the plain base64 of
    the plaintext); when encryption fails — cipher uninitialised — the code
    falls back to sending plain base64, so the fallback is not receive-only. -/
theorem send_paths_encrypt_when_initialized (st : ConnState) (ctx : GCMCtx)
    (nonce data msg : List Nat) (hctx : st.aes = some ctx)
    (hmob : st.mobileConnected = true) (hrel : st.relayConnected = true)
    (hws : st.wsConn = true) (hn : nonce.length = 12) :
    sendToMobile st nonce data =
      some ⟨gostr ("data"), b64encode (gcmSeal ctx nonce data)⟩ ∧
    sendControlMessage st nonce msg =
      some ⟨gostr ("data"), b64encode (gcmSeal ctx nonce (0 :: (gostr ("CTRL:") ++ msg)))⟩ ∧
    b64encode (gcmSeal ctx nonce data) ≠ b64encode data := by
  refine ⟨?_, ?_, ?_⟩
  · simp [sendToMobile, encrypt, hctx, hmob, hrel, hws]
  · simp [sendControlMessage, encrypt, hctx, hmob, hrel, hws]
  · intro hEq
    have hlen := congrArg List.length hEq
    rw [b64encode_length, b64encode_length, gcmSeal_length, hn] at hlen
    omega

theorem send_paths_encrypt_when_initialized_witness :
    sendToMobile ⟨true, true, true, some (initGCM (List.replicate 32 0))⟩
        (List.range 12) (gostr ("hi")) =
      some ⟨gostr ("data"),
        b64encode (gcmSeal (initGCM (List.replicate 32 0)) (List.range 12) (gostr ("hi")))⟩ ∧
    sendControlMessage ⟨true, true, true, some (initGCM (List.replicate 32 0))⟩
        (List.range 12) (gostr ("ok")) =
      some ⟨gostr ("data"),
        b64encode (gcmSeal (initGCM (List.replicate 32 0)) (List.range 12)
          (0 :: (gostr ("CTRL:") ++ gostr ("ok"))))⟩ ∧
    b64encode (gcmSeal (initGCM (List.replicate 32 0)) (List.range 12) (gostr ("hi"))) ≠
      b64encode (gostr ("hi")) :=
  send_paths_encrypt_when_initialized ⟨true, true, true, some (initGCM (List.replicate 32 0))⟩
    (initGCM (List.replicate 32 0)) (List.range 12) (gostr ("hi")) (gostr ("ok"))
    rfl rfl rfl rfl rfl

/-- C2 counterexample: with the mobile connected and the cipher uninitialised
    (encryption failure), `sendToMobile` emits exactly the plain base64 of
    the plaintext, contradicting "the payload is … never plain base64 of the
    plaintext". -/
theorem sendToMobile_plain_base64_counterexample :
    sendToMobile ⟨true, true, true, none⟩ [] (gostr ("hi")) =
      some ⟨gostr ("data"), b64encode (gostr ("hi"))⟩ := rfl

/-- C9: a saved PC identity record loads back unchanged — every field,
    including the paired-mobiles list, is preserved by the marshal /
    unmarshal round trip. -/
theorem loadPCConfig_savePCConfig (c : PCConfig) :
    loadPCConfig (savePCConfig c) = some c := by
  have h := decodeMobiles_marshalMobile c.pairedMobiles
  simp +decide [loadPCConfig, savePCConfig, jsonLookup, jStr, jArr, List.find?, h]

/-- C6 (amended): when a chunk arrives that makes the stored chunk count equal
    `total_chunks` while index `missing` is absent, the bridge emits
    `file-upload-result:error:Missing chunk <missing> for <id>` — but the
    upload record is NOT removed from the store: it remains (with the new
    chunk inserted) until the idle-timeout GC reclaims it. -/
theorem missing_chunk_keeps_record (st : UploadStore)
    (args uploadId idxStr chunkBase64 chunkData : List Nat)
    (up : ChunkedUpload) (missing : Int)
    (hsplit : splitN3 58 args = (uploadId, some (idxStr, some chunkBase64)))
    (hdec : b64decode chunkBase64 = some chunkData)
    (hlook : storeLookup st uploadId = some up)
    (hfull : ((mapInsert up.chunks (parseGoInt idxStr) chunkData).length : Int) =
      up.totalChunks)
    (hmiss : assembleChunks (mapInsert up.chunks (parseGoInt idxStr) chunkData)
      up.totalChunks = .inl missing) :
    handleChunkedUploadChunk st args =
      (storeInsert st uploadId
        { up with chunks := mapInsert up.chunks (parseGoInt idxStr) chunkData },
       [UpEff.ctrl (gostr ("file-upload-result:error:Missing chunk ") ++
         intDec missing ++ gostr (" for ") ++ uploadId)]) ∧
    storeLookup (handleChunkedUploadChunk st args).1 uploadId =
      some { up with chunks := mapInsert up.chunks (parseGoInt idxStr) chunkData } := by
    have hmain : handleChunkedUploadChunk st args =
        (storeInsert st uploadId
          { up with chunks := mapInsert up.chunks (parseGoInt idxStr) chunkData },
         [UpEff.ctrl (gostr ("file-upload-result:error:Missing chunk ") ++
           intDec missing ++ gostr (" for ") ++ uploadId)]) := by
      unfold handleChunkedUploadChunk
      rw [hsplit]
      simp [hdec, hlook, hfull]
      rw [hmiss]
    exact ⟨hmain, by rw [hmain]; exact storeLookup_storeInsert _ _ _⟩

theorem missing_chunk_keeps_record_witness :
    handleChunkedUploadChunk sampleMissRun2.1 (gostr ("u1:0:aGVsbA==")) =
      (storeInsert sampleMissRun2.1 (gostr ("u1"))
        { fileName := gostr ("hi.txt"), totalChunks := 2, totalSize := 4,
          chunks := mapInsert [((5 : Int), gostr ("world"))] (parseGoInt (gostr ("0")))
            (gostr ("hell")) },
       [UpEff.ctrl (gostr ("file-upload-result:error:Missing chunk ") ++
         intDec 1 ++ gostr (" for ") ++ gostr ("u1"))]) ∧
    storeLookup (handleChunkedUploadChunk sampleMissRun2.1 (gostr ("u1:0:aGVsbA=="))).1
        (gostr ("u1")) =
      some { fileName := gostr ("hi.txt"), totalChunks := 2, totalSize := 4,
             chunks := mapInsert [((5 : Int), gostr ("world"))] (parseGoInt (gostr ("0")))
               (gostr ("hell")) } :=
  missing_chunk_keeps_record sampleMissRun2.1 (gostr ("u1:0:aGVsbA==")) (gostr ("u1"))
    (gostr ("0")) (gostr ("aGVsbA==")) (gostr ("hell"))
    { fileName := gostr ("hi.txt"), totalChunks := 2, totalSize := 4,
      chunks := [((5 : Int), gostr ("world"))] } 1
    (by decide) (by decide) (by decide) (by decide) (by decide)

/-- C6 counterexample: after `file-upload-start:u1:hi.txt:2:4`, a chunk at
    index 5 and a chunk at index 0, the count reaches `total_chunks = 2` with
    index 1 missing; the error is emitted but the record is still in the
    store, so "the upload record for `<id>` is removed" is false. -/
theorem missing_chunk_record_not_removed_counterexample :
    sampleMissRun3.2 =
      [UpEff.ctrl (gostr ("file-upload-result:error:Missing chunk 1 for u1"))] ∧
    ¬(storeLookup sampleMissRun3.1 (gostr ("u1")) = none) := by
  constructor
  · rfl
  · decide

/-- C7 (amended): for every chunked upload that completes, the upload record
    is removed and the file write receives exactly the concatenation of the
    chunks in ascending index order, so the written file's byte length equals
    the sum of the chunk byte lengths — the advertised `total_size` is never
    consulted and need not match. -/
theorem completed_upload_written_length (st : UploadStore)
    (args uploadId idxStr chunkBase64 chunkData fullData : List Nat)
    (up : ChunkedUpload)
    (hsplit : splitN3 58 args = (uploadId, some (idxStr, some chunkBase64)))
    (hdec : b64decode chunkBase64 = some chunkData)
    (hlook : storeLookup st uploadId = some up)
    (hfull : ((mapInsert up.chunks (parseGoInt idxStr) chunkData).length : Int) =
      up.totalChunks)
    (hasm : assembleChunks (mapInsert up.chunks (parseGoInt idxStr) chunkData)
      up.totalChunks = .inr fullData) :
    handleChunkedUploadChunk st args =
      (storeErase (storeInsert st uploadId
          { up with chunks := mapInsert up.chunks (parseGoInt idxStr) chunkData })
        uploadId,
       [UpEff.saveFile up.fileName fullData]) ∧
    storeLookup (handleChunkedUploadChunk st args).1 uploadId = none ∧
    fullData.length =
      chunkLenSum (mapInsert up.chunks (parseGoInt idxStr) chunkData) 0
        up.totalChunks.toNat ∧
    (∀ ts path dat, UpEff.saveFile path dat ∈ saveUploadedFileBytes up.fileName fullData ts →
      dat.length = chunkLenSum (mapInsert up.chunks (parseGoInt idxStr) chunkData) 0
        up.totalChunks.toNat) := by
  have hmain : handleChunkedUploadChunk st args =
      (storeErase (storeInsert st uploadId
          { up with chunks := mapInsert up.chunks (parseGoInt idxStr) chunkData })
        uploadId,
       [UpEff.saveFile up.fileName fullData]) := by
    unfold handleChunkedUploadChunk
    rw [hsplit]
    simp [hdec, hlook, hfull]
    rw [hasm]
  have hlen : fullData.length =
      chunkLenSum (mapInsert up.chunks (parseGoInt idxStr) chunkData) 0
        up.totalChunks.toNat :=
    assembleFrom_inr_length _ _ 0 fullData hasm
  refine ⟨hmain, ?_, hlen, ?_⟩
  · rw [hmain]; exact storeLookup_storeErase _ _
  · intro ts path dat hmem
    simp only [saveUploadedFileBytes] at hmem
    split at hmem
    · simp at hmem
    · simp at hmem
      rw [hmem.2]
      exact hlen

theorem completed_upload_written_length_witness :
    handleChunkedUploadChunk sampleUploadRun2.1 (gostr ("u1:0:aGVsbA==")) =
      (storeErase (storeInsert sampleUploadRun2.1 (gostr ("u1"))
          { fileName := gostr ("hi.txt"), totalChunks := 2, totalSize := 4,
            chunks := mapInsert [((1 : Int), gostr ("world"))] (parseGoInt (gostr ("0")))
              (gostr ("hell")) })
        (gostr ("u1")),
       [UpEff.saveFile (gostr ("hi.txt")) (gostr ("hellworld"))]) ∧
    storeLookup (handleChunkedUploadChunk sampleUploadRun2.1 (gostr ("u1:0:aGVsbA=="))).1
        (gostr ("u1")) = none ∧
    (gostr ("hellworld")).length =
      chunkLenSum (mapInsert [((1 : Int), gostr ("world"))] (parseGoInt (gostr ("0")))
        (gostr ("hell"))) 0 (2 : Int).toNat ∧
    (∀ ts path dat,
      UpEff.saveFile path dat ∈ saveUploadedFileBytes (gostr ("hi.txt")) (gostr ("hellworld")) ts →
      dat.length =
        chunkLenSum (mapInsert [((1 : Int), gostr ("world"))] (parseGoInt (gostr ("0")))
          (gostr ("hell"))) 0 (2 : Int).toNat) :=
  completed_upload_written_length sampleUploadRun2.1 (gostr ("u1:0:aGVsbA=="))
    (gostr ("u1")) (gostr ("0")) (gostr ("aGVsbA==")) (gostr ("hell"))
    (gostr ("hellworld"))
    { fileName := gostr ("hi.txt"), totalChunks := 2, totalSize := 4,
      chunks := [((1 : Int), gostr ("world"))] }
    (by decide) (by decide) (by decide) (by decide) (by decide)

/-- C7 counterexample: the spec's own two-chunk scenario advertises
    `total_size = 4` but the chunks are `"hell"` (4 bytes) and `"world"`
    (5 bytes); the upload completes and the file write receives 9 bytes, so
    "the written file's byte length equals `total_size`" is false. -/
theorem completed_upload_size_mismatch_counterexample :
    sampleUploadRun3.2 = [UpEff.saveFile (gostr ("hi.txt")) (gostr ("hellworld"))] ∧
    (storeLookup sampleUploadRun2.1 (gostr ("u1"))).map ChunkedUpload.totalSize =
      some 4 ∧
    ((gostr ("hellworld")).length : Int) ≠ 4 := by
  refine ⟨rfl, rfl, by decide⟩

theorem toU16_eq_toNat (c : Int) (h0 : 0 ≤ c) (h1 : c < 65536) :
    toU16 c = c.toNat := by
  unfold toU16
  rw [Int.emod_eq_of_lt h0 h1]

/-- C5: on both input sides, a terminating CR or LF on a line whose
    accumulated printable characters (lower-cased and trimmed) match a
    recognised meta-command makes the bridge write exactly one Ctrl+U (0x15)
    to the PTY, not forward the CR/LF, and clear the buffer; a non-matching
    line forwards the CR/LF and clears the buffer. -/
theorem line_interceptor_meta_command (s : ViewState) (ws : Winsize) (b : Nat)
    (hb : b = 13 ∨ b = 10) (hpty : s.ptmx = some ws) (hesc : s.inEscapeSeq = false) :
    ((getAIPilotCommand (goTrimSpace (goToLower s.lineBuf)) ≠ [] →
        stdinStep s b = ({ s with lineBuf := [] },
          [Eff.ptyWrite [21],
           Eff.execCmd (getAIPilotCommand (goTrimSpace (goToLower s.lineBuf)))])) ∧
     (getAIPilotCommand (goTrimSpace (goToLower s.lineBuf)) = [] →
        stdinStep s b = ({ s with lineBuf := [] }, [Eff.ptyWrite [b]]))) ∧
    ((getAIPilotCommand (goTrimSpace (goToLower s.mobileLineBuf)) ≠ [] →
        mobileCharStep s b = ({ s with mobileLineBuf := [] },
          [Eff.ptyWrite [21],
           Eff.execCmd (getAIPilotCommand (goTrimSpace (goToLower s.mobileLineBuf)))])) ∧
     (getAIPilotCommand (goTrimSpace (goToLower s.mobileLineBuf)) = [] →
        mobileCharStep s b = ({ s with mobileLineBuf := [] }, [Eff.ptyWrite [b]]))) := by
  rcases hb with rfl | rfl <;>
    exact ⟨⟨fun h => by simp [stdinStep, sendToPTY, hesc, hpty, h],
            fun h => by simp [stdinStep, sendToPTY, hesc, hpty, h]⟩,
           ⟨fun h => by simp [mobileCharStep, sendToPTY, hpty, h],
            fun h => by simp [mobileCharStep, sendToPTY, hpty, h]⟩⟩

theorem line_interceptor_meta_command_witness :
    stdinStep sampleLineState 13 = ({ sampleLineState with lineBuf := [] },
      [Eff.ptyWrite [21],
       Eff.execCmd (getAIPilotCommand (goTrimSpace (goToLower sampleLineState.lineBuf)))]) ∧
    mobileCharStep sampleLineState 13 = ({ sampleLineState with mobileLineBuf := [] },
      [Eff.ptyWrite [13]]) :=
  ⟨(line_interceptor_meta_command sampleLineState ⟨80, 24⟩ 13 (Or.inl rfl) rfl rfl).1.1
      (by decide),
   (line_interceptor_meta_command sampleLineState ⟨80, 24⟩ 13 (Or.inl rfl) rfl rfl).2.2
      (by decide)⟩

/-- C4 (amended): a decrypted `\x00CTRL:resize:<cols>,<rows>` payload with
    `0 < cols, rows < 65536`, received while the PTY exists and
    `current_client = pc`, sets the mobile dimensions, resizes the PTY to
    exactly those dimensions, switches `current_client` to mobile, schedules
    one Ctrl+L (0x0C) 50&nbsp;ms later, and sends a `mode:mobile` control
    frame; non-positive dimensions leave the state and winsize unchanged.
    (The upper bound is forced by the `uint16` truncation counterexample.) -/
theorem resize_control_message (s : ViewState) (data : List Nat) (c r : Int)
    (ws : Winsize) (hdims : resizeDimsOf data = some (c, r))
    (hclient : s.currentClient = gostr ("pc")) (hpty : s.ptmx = some ws) :
    (0 < c → c < 65536 → 0 < r → r < 65536 →
      handleDecryptedData s data =
        ({ s with mobileCols := c, mobileRows := r,
                  ptmx := some ⟨c.toNat, r.toNat⟩, currentClient := gostr ("mobile") },
         [Eff.ptyResize c.toNat r.toNat, Eff.delayedPtyWrite 50 [12],
          Eff.ctrlMsg (gostr ("mode:mobile"))])) ∧
    ((c ≤ 0 ∨ r ≤ 0) → handleDecryptedData s data = (s, [])) := by
  by_cases hctrl : 6 < data.length ∧ data.getD 0 0 = 0 ∧
      (data.drop 1).take 5 = gostr ("CTRL:")
  case neg =>
    simp only [resizeDimsOf, if_neg hctrl] at hdims
    exact absurd hdims (by simp)
  by_cases hverb : (splitN2 58 (data.drop 6)).1 = gostr ("resize")
  case neg =>
    simp only [resizeDimsOf, if_pos hctrl, if_neg hverb] at hdims
    exact absurd hdims (by simp)
  by_cases hlen : (goSplit 44 ((splitN2 58 (data.drop 6)).2.getD [])).length = 2
  case neg =>
    simp only [resizeDimsOf, if_pos hctrl, if_pos hverb, if_neg hlen] at hdims
    exact absurd hdims (by simp)
  simp only [resizeDimsOf, if_pos hctrl, if_pos hverb, if_pos hlen,
    Option.some.injEq, Prod.mk.injEq] at hdims
  obtain ⟨hc, hr⟩ := hdims
  constructor
  · intro hc0 hc1 hr0 hr1
    have hcne : ¬(s.currentClient = gostr ("mobile")) := by
      rw [hclient]; decide
    simp only [handleDecryptedData, if_pos hctrl, handleControlMessageView,
      if_pos hverb, handleResizeCommand, if_pos hlen, hc, hr,
      if_pos (And.intro hc0 hr0), hpty]
    simp only [switchToClient, if_neg hcne,
      if_pos (show gostr ("mobile") = gostr ("mobile") from rfl), hpty, if_true]
    rw [if_neg (by omega : ¬(c ≤ 0 ∨ r ≤ 0))]
    simp +decide [toU16_eq_toNat c (by omega) hc1, toU16_eq_toNat r (by omega) hr1]
  · intro hbad
    simp only [handleDecryptedData, if_pos hctrl, handleControlMessageView,
      if_pos hverb, handleResizeCommand, if_pos hlen, hc, hr, if_true]
    rw [if_neg (by omega : ¬(0 < c ∧ 0 < r))]

theorem resize_control_message_witness :
    handleDecryptedData (pcViewState 80 24) (gostr ("\x00CTRL:resize:132,43")) =
      ({ pcViewState 80 24 with
          mobileCols := 132, mobileRows := 43,
          ptmx := some ⟨(132 : Int).toNat, (43 : Int).toNat⟩,
          currentClient := gostr ("mobile") },
       [Eff.ptyResize (132 : Int).toNat (43 : Int).toNat, Eff.delayedPtyWrite 50 [12],
        Eff.ctrlMsg (gostr ("mode:mobile"))]) ∧
    handleDecryptedData (pcViewState 80 24) (gostr ("\x00CTRL:resize:0,43")) =
      (pcViewState 80 24, []) :=
  ⟨(resize_control_message (pcViewState 80 24) (gostr ("\x00CTRL:resize:132,43"))
      132 43 ⟨80, 24⟩ (by decide) rfl rfl).1 (by decide) (by decide) (by decide) (by decide),
   (resize_control_message (pcViewState 80 24) (gostr ("\x00CTRL:resize:0,43"))
      0 43 ⟨80, 24⟩ (by decide) rfl rfl).2 (Or.inl (by decide))⟩

/-- C4 counterexample: for the payload `\x00CTRL:resize:70000,50` the bridge
    stores `mobile_cols = 70000` but resizes the PTY to 4464 columns (the Go
    `uint16(cols)` truncation), so "resizes the PTY to those dimensions" is
    false for dimensions at or above 65536. -/
theorem resize_control_truncation_counterexample :
    (handleDecryptedData (pcViewState 80 24)
        (gostr ("\x00CTRL:resize:70000,50"))).1.mobileCols = 70000 ∧
    (handleDecryptedData (pcViewState 80 24)
        (gostr ("\x00CTRL:resize:70000,50"))).1.ptmx = some ⟨4464, 50⟩ ∧
    ¬((4464 : Int) = 70000) := by
  refine ⟨by decide, by decide, by decide⟩

/-! ### State-machine helper lemmas -/

theorem toU16_int (c : Int) (h0 : 0 ≤ c) (h1 : c < 65536) :
    ((toU16 c : Nat) : Int) = c := by
  rw [toU16_eq_toNat c h0 h1, Int.toNat_of_nonneg h0]

theorem clientInv_congr {s s' : ViewState} (h : viewCore s' = viewCore s)
    (hinv : clientInv s) : clientInv s' := by
  simp only [viewCore, Prod.mk.injEq] at h
  obtain ⟨h1, h2, h3, h4, h5, h6⟩ := h
  unfold clientInv at hinv ⊢
  rw [h1, h2, h3, h4, h5, h6]
  exact hinv

theorem timerInv_congr {s s' : ViewState} (h : timerCore s' = timerCore s)
    (hinv : timerInv s) : timerInv s' := by
  simp only [timerCore, Prod.mk.injEq] at h
  unfold timerInv at hinv ⊢
  rw [h.1, h.2]
  exact hinv

theorem switchToClient_timerCore (s : ViewState) (c : List Nat) :
    timerCore (switchToClient s c).1 = timerCore s := by
  simp only [switchToClient]
  split_ifs <;> first
    | rfl
    | (cases s.ptmx <;> rfl)

theorem resizePTY_timerCore (s : ViewState) (rows cols : Nat) :
    timerCore (resizePTY s rows cols).1 = timerCore s := by
  unfold resizePTY
  cases s.ptmx <;> rfl

theorem handleResizeCommand_timerCore (s : ViewState) (args : List Nat) :
    timerCore (handleResizeCommand s args).1 = timerCore s := by
  simp only [handleResizeCommand]
  split_ifs <;> try rfl
  all_goals cases hpm : s.ptmx
  all_goals first
    | rfl
    | exact (resizePTY_timerCore _ _ _).trans rfl
    | exact (switchToClient_timerCore _ _).trans rfl

theorem handleControlMessageView_timerCore (s : ViewState) (msg : List Nat) :
    timerCore (handleControlMessageView s msg).1 = timerCore s := by
  simp only [handleControlMessageView]
  split_ifs with h
  · exact handleResizeCommand_timerCore s _
  · rfl

theorem mobileCharStep_timerCore (s : ViewState) (c : Nat) :
    timerCore (mobileCharStep s c).1 = timerCore s := by
  simp only [mobileCharStep]
  split_ifs <;> rfl

theorem mobileCharStep_viewCore (s : ViewState) (c : Nat) :
    viewCore (mobileCharStep s c).1 = viewCore s := by
  simp only [mobileCharStep]
  split_ifs <;> rfl

theorem dataFoldl_timerCore (d : List Nat) :
    ∀ acc : ViewState × List Eff,
      timerCore ((d.foldl
        (fun (acc : ViewState × List Eff) c =>
          let st := mobileCharStep acc.1 c
          (st.1, acc.2 ++ st.2)) acc).1) = timerCore acc.1 := by
  induction d with
  | nil => intro acc; rfl
  | cons c t ih =>
    intro acc
    rw [List.foldl_cons, ih]
    exact mobileCharStep_timerCore acc.1 c

theorem dataFoldl_viewCore (d : List Nat) :
    ∀ acc : ViewState × List Eff,
      viewCore ((d.foldl
        (fun (acc : ViewState × List Eff) c =>
          let st := mobileCharStep acc.1 c
          (st.1, acc.2 ++ st.2)) acc).1) = viewCore acc.1 := by
  induction d with
  | nil => intro acc; rfl
  | cons c t ih =>
    intro acc
    rw [List.foldl_cons, ih]
    exact mobileCharStep_viewCore acc.1 c

theorem schedulePCSwitch_viewCore (s : ViewState) :
    viewCore (schedulePCSwitch s) = viewCore s := by
  simp only [schedulePCSwitch]
  split_ifs <;> rfl

theorem stdinStep_viewCore (s : ViewState) (b : Nat) :
    viewCore (stdinStep s b).1 = viewCore s := by
  simp only [stdinStep]
  split_ifs <;> first
    | rfl
    | exact (schedulePCSwitch_viewCore _).trans rfl

theorem timerInv_schedulePCSwitch (s : ViewState) (h : timerInv s) :
    timerInv (schedulePCSwitch s) := by
  simp only [schedulePCSwitch]
  by_cases hc : s.currentClient = gostr ("pc")
  · simpa [hc]
  · rw [if_neg hc]
    refine ⟨fun hn => by simp at hn, fun u hu => ?_⟩
    simp only [Option.some.injEq] at hu
    subst hu
    right
    cases hts : s.pcSwitchTimer with
    | none => simp [hts, h.1 hts]
    | some v => rcases h.2 v hts with h2 | h2 <;> simp [hts, h2]

theorem timerInv_fire (s : ViewState) (t : Nat) (hinv : timerInv s) :
    timerInv { s with liveTimers := s.liveTimers.erase t } := by
  refine ⟨fun hn => ?_, fun u hu => ?_⟩
  · simp only at hn
    simp [hinv.1 hn]
  · simp only at hu
    rcases hinv.2 u hu with h | h
    · simp [h]
    · by_cases htu : u = t
      · subst htu; simp [h]
      · right
        simp only [h, List.erase_cons]
        simp [htu]

theorem timerInv_stdinStep (s : ViewState) (b : Nat) (h : timerInv s) :
    timerInv (stdinStep s b).1 := by
  simp only [stdinStep]
  split_ifs <;> first
    | exact h
    | exact timerInv_schedulePCSwitch _ (timerInv_congr rfl h)

theorem clientInv_switchToClient (s : ViewState) (c : List Nat)
    (hinv : clientInv s) : clientInv (switchToClient s c).1 := by
  simp only [switchToClient]
  by_cases h1 : s.currentClient = c
  · simpa [h1]
  rw [if_neg h1]
  obtain ⟨hb1, hb2, hb3, hb4, hws⟩ := hinv
  by_cases hm : c = gostr ("mobile")
  · rw [if_pos hm, if_pos hm]
    by_cases hdim : s.mobileCols ≤ 0 ∨ s.mobileRows ≤ 0
    · rw [if_pos hdim]; exact ⟨hb1, hb2, hb3, hb4, hws⟩
    rw [if_neg hdim]
    cases hptmx : s.ptmx with
    | none => exact ⟨hb1, hb2, hb3, hb4, hws⟩
    | some ws0 =>
      refine ⟨hb1, hb2, hb3, hb4, ?_⟩
      intro ws hwseq
      simp only [Option.some.injEq] at hwseq
      constructor
      · intro hpc
        simp only [hm] at hpc
        exact absurd hpc (by decide)
      · intro _
        have h0c : 0 < s.mobileCols := by omega
        have h0r : 0 < s.mobileRows := by omega
        refine ⟨h0c, h0r, ?_, ?_⟩ <;>
          rw [← hwseq] <;>
          simp [toU16_eq_toNat _ (by omega) hb3, toU16_eq_toNat _ (by omega) hb4,
            Int.toNat_of_nonneg (by omega : (0 : Int) ≤ s.mobileCols),
            Int.toNat_of_nonneg (by omega : (0 : Int) ≤ s.mobileRows)]
  · rw [if_neg hm, if_neg hm]
    by_cases hdim : s.pcCols ≤ 0 ∨ s.pcRows ≤ 0
    · rw [if_pos hdim]; exact ⟨hb1, hb2, hb3, hb4, hws⟩
    rw [if_neg hdim]
    cases hptmx : s.ptmx with
    | none => exact ⟨hb1, hb2, hb3, hb4, hws⟩
    | some ws0 =>
      refine ⟨hb1, hb2, hb3, hb4, ?_⟩
      intro ws hwseq
      simp only [Option.some.injEq] at hwseq
      constructor
      · intro _
        have h0c : 0 < s.pcCols := by omega
        have h0r : 0 < s.pcRows := by omega
        refine ⟨h0c, h0r, ?_, ?_⟩ <;>
          rw [← hwseq] <;>
          simp [toU16_eq_toNat _ (by omega) hb1, toU16_eq_toNat _ (by omega) hb2,
            Int.toNat_of_nonneg (by omega : (0 : Int) ≤ s.pcCols),
            Int.toNat_of_nonneg (by omega : (0 : Int) ≤ s.pcRows)]
      · intro hmex
        exact absurd hmex hm

theorem clientInv_handleResizeCommand (s : ViewState) (args : List Nat)
    (hinv : clientInv s)
    (hbound : (goSplit 44 args).length = 2 →
      parseGoInt ((goSplit 44 args).getD 0 []) < 65536 ∧
      parseGoInt ((goSplit 44 args).getD 1 []) < 65536) :
    clientInv (handleResizeCommand s args).1 := by
  simp only [handleResizeCommand]
  by_cases hlen : (goSplit 44 args).length = 2
  case neg => rw [if_neg hlen]; exact hinv
  rw [if_pos hlen]
  obtain ⟨hbc, hbr⟩ := hbound hlen
  by_cases hcr : 0 < parseGoInt ((goSplit 44 args).getD 0 []) ∧
      0 < parseGoInt ((goSplit 44 args).getD 1 [])
  case neg => rw [if_neg hcr]; exact hinv
  rw [if_pos hcr]
  obtain ⟨hb1, hb2, hb3, hb4, hws⟩ := hinv
  cases hptmx : s.ptmx with
  | none =>
    simp only [hptmx]
    refine ⟨hb1, hb2, hbc, hbr, ?_⟩
    intro ws hwseq
    simp only [hptmx] at hwseq
    exact absurd hwseq (by simp)
  | some ws0 =>
    simp only [hptmx]
    by_cases hmob : s.currentClient = gostr ("mobile")
    · rw [if_pos hmob]
      simp only [resizePTY, hptmx]
      refine ⟨hb1, hb2, hbc, hbr, ?_⟩
      intro ws hwseq
      simp only [Option.some.injEq] at hwseq
      constructor
      · intro hpc
        rw [hmob] at hpc
        exact absurd hpc (by decide)
      · intro _
        refine ⟨hcr.1, hcr.2, ?_, ?_⟩
        · rw [← hwseq]
          exact toU16_int _ (by omega) hbc
        · rw [← hwseq]
          exact toU16_int _ (by omega) hbr
    · rw [if_neg hmob]
      apply clientInv_switchToClient
      refine ⟨hb1, hb2, hbc, hbr, ?_⟩
      intro ws hwseq
      obtain ⟨hpc, _⟩ := hws ws (hptmx.trans hwseq)
      constructor
      · intro h; exact hpc h
      · intro hmex; exact absurd hmex hmob

theorem handleWinch_timerCore (s : ViewState) (w h : Int) :
    timerCore (handleWinch s w h).1 = timerCore s := by
  simp only [handleWinch]
  split_ifs <;> try rfl
  all_goals cases s.ptmx <;> rfl

theorem handleConnectedMobile_timerCore (s : ViewState) :
    timerCore (handleConnectedMobile s).1 = timerCore s := by
  simp only [handleConnectedMobile]
  split
  · rfl
  · split_ifs <;> rfl

theorem clientInv_viewStep (s : ViewState) (e : VEvent) (hinv : clientInv s)
    (hok : eventOK e) : clientInv (viewStep s e).1 := by
  cases e with
  | stdin b => exact clientInv_congr (stdinStep_viewCore s b) hinv
  | wsData d =>
    simp only [viewStep, handleDecryptedData]
    split_ifs with hctrl
    · simp only [handleControlMessageView]
      split_ifs with hverb
      · refine clientInv_handleResizeCommand _ _ hinv ?_
        intro hlen2
        have hrd : resizeDimsOf d = some
            (parseGoInt ((goSplit 44 ((splitN2 58 (d.drop 6)).2.getD [])).getD 0 []),
             parseGoInt ((goSplit 44 ((splitN2 58 (d.drop 6)).2.getD [])).getD 1 [])) := by
          simp only [resizeDimsOf, if_pos hctrl, if_pos hverb, if_pos hlen2]
        exact hok _ _ hrd
      · exact hinv
    · exact clientInv_congr (dataFoldl_viewCore d _)
        (clientInv_switchToClient s _ hinv)
  | fire t =>
    simp only [viewStep]
    split_ifs with ht
    · simp only [fireTimer]
      exact clientInv_switchToClient _ _ (clientInv_congr (by simp [viewCore]) hinv)
    · exact hinv
  | winch w h =>
    obtain ⟨hw, hh⟩ := hok
    rcases hptmx : s.ptmx with _ | ws0
    · simp only [viewStep, handleWinch, hptmx]
      split_ifs with hpos hcl
      · refine ⟨hw, hh, hinv.2.2.1, hinv.2.2.2.1, ?_⟩
        intro ws hwseq
        exact absurd hwseq (by simp)
      · refine ⟨hw, hh, hinv.2.2.1, hinv.2.2.2.1, ?_⟩
        intro ws hwseq
        change (none : Option Winsize) = some ws at hwseq
        exact absurd hwseq (by simp)
      · exact hinv
    · simp only [viewStep, handleWinch, hptmx]
      split_ifs with hpos hcl
      · refine ⟨hw, hh, hinv.2.2.1, hinv.2.2.2.1, ?_⟩
        intro ws hwseq
        simp only [Option.some.injEq] at hwseq
        constructor
        · intro _
          refine ⟨hpos.1, hpos.2, ?_, ?_⟩
          · rw [← hwseq]; exact toU16_int _ (by omega) hw
          · rw [← hwseq]; exact toU16_int _ (by omega) hh
        · intro hm
          change gostr ("pc") = gostr ("mobile") at hm
          exact absurd hm (by decide)
      · refine ⟨hw, hh, hinv.2.2.1, hinv.2.2.2.1, ?_⟩
        intro ws hwseq
        obtain ⟨hpc, hmob⟩ := hinv.2.2.2.2 ws (hptmx.trans hwseq)
        constructor
        · intro hcc
          exact absurd (Or.inl hcc) hcl
        · intro hcm
          exact hmob hcm
      · exact hinv
  | connected =>
    rcases hptmx : s.ptmx with _ | ws0
    · simp only [viewStep, handleConnectedMobile, hptmx]
      exact hinv
    · simp only [viewStep, handleConnectedMobile, hptmx]
      split_ifs with hp
      · exact clientInv_congr (by simp [viewCore, hptmx]) hinv
      · exact hinv

/-- C8: while `current_client = mobile`, a printable local keystroke reaches
    the PTY immediately with no resize and re-arms the single 100 ms debounce
    timer (the previous timer is stopped, so at most one is ever pending);
    only a timer that is still pending performs the switch: it resizes the
    PTY to the PC dimensions, sets `current_client = pc`, and sends a
    `mode:pc` control frame; and every event preserves the at-most-one-timer
    invariant. -/
theorem pc_switch_debounce :
    (∀ (s : ViewState) (ws : Winsize) (b : Nat),
        s.currentClient = gostr ("mobile") → s.inEscapeSeq = false →
        32 ≤ b → b < 127 → s.ptmx = some ws → timerInv s →
        stdinStep s b =
          ({ s with
              lineBuf := s.lineBuf ++ [b],
              pcSwitchTimer := some s.nextTimer,
              liveTimers := [s.nextTimer],
              nextTimer := s.nextTimer + 1 },
           [Eff.ptyWrite [b]])) ∧
    (∀ (s : ViewState) (t : Nat) (ws : Winsize),
        s.ptmx = some ws → ¬(s.currentClient = gostr ("pc")) →
        0 < s.pcCols → s.pcCols < 65536 → 0 < s.pcRows → s.pcRows < 65536 →
        t ∈ s.liveTimers →
        viewStep s (.fire t) =
          ({ s with
              liveTimers := s.liveTimers.erase t,
              ptmx := some ⟨s.pcCols.toNat, s.pcRows.toNat⟩,
              currentClient := gostr ("pc") },
           [Eff.ptyResize s.pcCols.toNat s.pcRows.toNat,
            Eff.ctrlMsg (gostr ("mode:pc"))])) ∧
    (∀ (s : ViewState) (e : VEvent), timerInv s → timerInv (viewStep s e).1) := by
  refine ⟨?_, ?_, ?_⟩
  · intro s ws b hmob hesc hge hlt hpty hinv
    have h27 : ¬(b = 27) := by omega
    have hfact : ¬(gostr ("mobile") = gostr ("pc")) := by decide
    simp only [stdinStep, if_neg h27, hesc, Bool.false_eq_true, if_false,
      if_pos (And.intro hge hlt), schedulePCSwitch, sendToPTY, hpty, hmob,
      if_neg hfact]
    rcases hts : s.pcSwitchTimer with _ | u
    · simp [hts, hinv.1 hts]
    · rcases hinv.2 u hts with h2 | h2 <;> simp [hts, h2]
  · intro s t ws hpty hnpc h1 h2 h3 h4 ht
    have hpm : ¬(gostr ("pc") = gostr ("mobile")) := by decide
    simp only [viewStep, if_pos ht, fireTimer, switchToClient, if_neg hpm]
    rw [if_neg (show ¬(({ s with liveTimers := s.liveTimers.erase t } :
      ViewState).currentClient = gostr ("pc")) from hnpc)]
    rw [if_neg (by simp only []; omega :
      ¬(({ s with liveTimers := s.liveTimers.erase t} : ViewState).pcCols ≤ 0 ∨
        ({ s with liveTimers := s.liveTimers.erase t} : ViewState).pcRows ≤ 0))]
    simp only [hpty]
    simp +decide [toU16_eq_toNat _ (by omega) h2, toU16_eq_toNat _ (by omega) h4]
  · intro s e hinv
    cases e with
    | stdin b => exact timerInv_stdinStep s b hinv
    | wsData d =>
      simp only [viewStep, handleDecryptedData]
      split_ifs with hctrl
      · exact timerInv_congr (handleControlMessageView_timerCore _ _) hinv
      · exact timerInv_congr ((dataFoldl_timerCore d _).trans
          ((switchToClient_timerCore _ _).trans rfl)) hinv
    | fire t =>
      simp only [viewStep]
      split_ifs with ht
      · simp only [fireTimer]
        exact timerInv_congr (switchToClient_timerCore _ _) (timerInv_fire s t hinv)
      · exact hinv
    | winch w h => exact timerInv_congr (handleWinch_timerCore _ _ _) hinv
    | connected => exact timerInv_congr (handleConnectedMobile_timerCore _) hinv

theorem pc_switch_debounce_witness :
    stdinStep { pcViewState 80 24 with currentClient := gostr ("mobile") } 97 =
      ({ { pcViewState 80 24 with currentClient := gostr ("mobile") } with
          lineBuf := ({ pcViewState 80 24 with
            currentClient := gostr ("mobile") } : ViewState).lineBuf ++ [97],
          pcSwitchTimer := some 0, liveTimers := [0], nextTimer := 1 },
       [Eff.ptyWrite [97]]) ∧
    viewStep { pcViewState 80 24 with
        currentClient := gostr ("mobile"), pcSwitchTimer := some 5,
        liveTimers := [5] } (.fire 5) =
      ({ { pcViewState 80 24 with
            currentClient := gostr ("mobile"), pcSwitchTimer := some 5,
            liveTimers := [5] } with
          liveTimers := ([5] : List Nat).erase 5,
          ptmx := some ⟨(80 : Int).toNat, (24 : Int).toNat⟩,
          currentClient := gostr ("pc") },
       [Eff.ptyResize (80 : Int).toNat (24 : Int).toNat,
        Eff.ctrlMsg (gostr ("mode:pc"))]) := by
  constructor
  · have h := pc_switch_debounce.1 { pcViewState 80 24 with
      currentClient := gostr ("mobile") } ⟨80, 24⟩ 97 rfl rfl (by decide) (by decide)
      rfl ⟨fun _ => rfl, fun t ht => by simp [pcViewState] at ht⟩
    simpa using h
  · have h := pc_switch_debounce.2.1 { pcViewState 80 24 with
      currentClient := gostr ("mobile"), pcSwitchTimer := some 5, liveTimers := [5] }
      5 ⟨80, 24⟩ rfl (by decide) (by decide) (by decide) (by decide) (by decide)
      (by decide)
    simpa using h

/-- C3 (amended): starting from any state satisfying the winsize invariant
    (in particular the startup state), and under any sequence of events whose
    requested dimensions fit in `uint16` (the OS winsize fields are `uint16`,
    and mobile resize requests must stay below 65536), every reachable state
    satisfies it: whenever `current_client = X` and the PTY exists, the PTY's
    winsize equals `(X_cols, X_rows)`.  The range side conditions are forced
    by the `uint16` truncation counterexample. -/
theorem winsize_invariant (s₀ : ViewState) (evs : List VEvent)
    (h₀ : clientInv s₀) (hok : ∀ e ∈ evs, eventOK e) :
    clientInv (viewRun s₀ evs) := by
  induction evs generalizing s₀ with
  | nil => exact h₀
  | cons e t ih =>
    exact ih (viewStep s₀ e).1
      (clientInv_viewStep s₀ e h₀ (hok e (List.mem_cons_self _ _)))
      (fun e2 he2 => hok e2 (List.mem_cons_of_mem _ he2))

theorem winsize_invariant_witness :
    clientInv (viewRun (pcViewState 80 24)
      [.wsData (gostr ("\x00CTRL:resize:132,43")), .stdin 97, .fire 0,
       .winch 100 40]) := by
  refine winsize_invariant (pcViewState 80 24) _ ?_ ?_
  · refine ⟨by decide, by decide, by decide, by decide, ?_⟩
    intro ws h
    simp only [pcViewState, Option.some.injEq] at h
    rw [← h]
    exact ⟨fun _ => by refine ⟨by decide, by decide, by decide, by decide⟩,
           fun hm => absurd hm (by decide)⟩
  · intro e he
    simp only [List.mem_cons, List.not_mem_nil, or_false] at he
    rcases he with rfl | rfl | rfl | rfl
    · intro c r h
      rw [show resizeDimsOf (gostr ("\x00CTRL:resize:132,43")) =
        some ((132 : Int), (43 : Int)) from by decide] at h
      simp only [Option.some.injEq, Prod.mk.injEq] at h
      omega
    · trivial
    · trivial
    · exact ⟨by decide, by decide⟩

/-- C3 counterexample: from the startup state, a single mobile
    `resize:70000,50` control frame reaches a state with
    `current_client = mobile` and `mobile_cols = 70000` while the PTY's
    winsize columns are 4464 (`uint16` truncation), so the invariant as
    stated — winsize equals `(X_cols, X_rows)` — is violated in a reachable
    state. -/
theorem winsize_invariant_counterexample :
    (viewRun (pcViewState 80 24)
      [.wsData (gostr ("\x00CTRL:resize:70000,50"))]).currentClient =
        gostr ("mobile") ∧
    (viewRun (pcViewState 80 24)
      [.wsData (gostr ("\x00CTRL:resize:70000,50"))]).mobileCols = 70000 ∧
    (viewRun (pcViewState 80 24)
      [.wsData (gostr ("\x00CTRL:resize:70000,50"))]).ptmx = some ⟨4464, 50⟩ ∧
    ¬(((4464 : Nat) : Int) = 70000) := by
  refine ⟨by decide, by decide, by decide, by decide⟩

end AIPilot
